import Mathlib

/-!
The tool wfs-recryptor: a model of `main` and its contract.

The development embeds `src/wfs-recryptor/main.cpp` (one function, `main`) as pure
functions over explicit state:

* the model starts from the parsed command line: `vm` is the record `Options` (a command
  line that `parse_command_line` rejects never gets past line 35);
* every call into wfslib or the C++ library is an oracle of `Env`, and every such call,
  every line printed and every request on a file handle is recorded, in program order,
  in a trace of `Event`s;
* exceptions are explicit: a stage either continues with a value or makes `main` return;
* `desc` (lines 22 to 32) declares no option `inject-path`, so the parse of line 35 never
  stores one: the entry `vm["inject-path"]` is empty on every run, and line 89, which
  builds the session on the source device and then reads that entry, throws. The
  handler of line 119 returns 1. No run gets to line 90;
* lines 90 to 94 declare `file` a second time, from the destination session, and test
  it; nothing of them is executed and the model stops the run at line 89;
* lines 95 to 117 are embedded all the same, as the function `inject` of the handle
  `file` they work on and of the names `file_size` and `input_file`, which the source
  uses without declaring them (`Inject`);
* `size_t` arithmetic is natural-number arithmetic modulo `2 ^ 64`;
* the loop of lines 102 to 111 runs on fuel: `main` takes the number of passes it may
  make, and a run that is cut short has no exit status.
-/

namespace WfsRecryptor

/-! ## Data -/

abbrev Byte := Nat

/-- Symmetric key, `std::vector<uint8_t>`. -/
abbrev Key := List Byte

/-- Contents of a one-time-programmable fuse dump, as loaded by `OTP::LoadFromFile`. -/
structure OTP where
  raw : List Byte
  deriving DecidableEq, Repr

/-- Contents of a serial EEPROM dump, as loaded by `SEEPROM::LoadFromFile`. -/
structure SEEPROM where
  raw : List Byte
  deriving DecidableEq, Repr

/-- Modelled from the spec: the wfslib `File` entry behind `std::shared_ptr<File>`
(`File.h` is not among the sources). The spec gives a file handle a logical size
(`GetSize`) and a size on disk (`GetSizeOnDisk`), which writes through the injection
stream leave alone; `entry` identifies the filesystem entry the handle stands for. -/
structure File where
  entry : Nat
  size : Nat
  sizeOnDisk : Nat
  deriving DecidableEq, Repr

/-- Modelled from the spec: `File::Resize` (`File.cpp` is not among the sources), which
sets the logical size and leaves the physical extent alone. -/
def File.Resize (f : File) (new_size : Nat) : File :=
  { f with size := new_size }

/-- The parsed command line, `boost::program_options::variables_map vm`: one field for
each option `desc` declares (lines 23 to 31). A path option is `none` when `vm.count` of
it is zero. -/
structure Options where
  help : Bool
  srcimage : Option String
  dstimage : Option String
  srcotp : Option String
  dstotp : Option String
  srcseeprom : Option String
  dstseeprom : Option String
  mlc : Bool
  usb : Bool
  deriving DecidableEq, Repr

/-- The entry `vm[name]` of an option that carries a value: what the parse of line 35
stored under `name`. Only the options `desc` declares can be stored. -/
def Options.entry (vm : Options) (name : String) : Option String :=
  if name = "srcimage" then vm.srcimage
  else if name = "dstimage" then vm.dstimage
  else if name = "srcotp" then vm.srcotp
  else if name = "dstotp" then vm.dstotp
  else if name = "srcseeprom" then vm.srcseeprom
  else if name = "dstseeprom" then vm.dstseeprom
  else none

/-- The entry `vm["inject-path"]` that lines 89 to 92 read. `desc` declares no option of
that name, so the entry is empty whatever the command line was. -/
def Options.inject_path (vm : Options) : Option String :=
  vm.entry "inject-path"

/-- The value of `vm.count(name)` for an option that carries a value. -/
def count (o : Option String) : Nat :=
  if o.isSome then 1 else 0

/-- The value of `vm.count(name)` for a switch. -/
def countFlag (b : Bool) : Nat :=
  if b then 1 else 0

/-- The lines `main` writes to `std::cerr`. -/
inductive Msg
  | missingSrcImage
  | missingDstImage
  | missingSrcOtp
  | missingDstOtp
  | missingSrcSeeprom
  | missingDstSeeprom
  | bothModes
  | otpFailed
  | seepromFailed
  | notFound
  | tooBig (wanted available : Nat)
  | readFailed
  | exception
  deriving DecidableEq, Repr

/-- What `main` does that is visible outside it, in program order. -/
inductive Event
  | err (m : Msg)
  | usage
  | done
  | loadOTP (path : String)
  | loadSEEPROM (path : String)
  | openDevice (path : String)
  | detect (device : String) (key : Key)
  | session (device : String) (key : Key)
  | getFile (device : String) (key : Key) (path : String)
  | streamOpen (f : File)
  | write (f : File) (buf : List Byte)
  | inputClose
  | streamClose (f : File)
  | resize (f : File) (new_size : Nat)
  deriving DecidableEq, Repr

/-- The library and the files around `main`. `none` or `false` stands for a call that
throws. `getFile device key path` is `Wfs(device, key).GetFile(path)`: `some none` is the
null handle of an absent entry; it says what the images hold, no run gets to call it. `closeThrows` says whether `stream.close()`, which
flushes to the device, throws; `std::ostream::write` itself never throws with the
default exception mask. -/
structure Env where
  loadOTP : String → Option OTP
  loadSEEPROM : String → Option SEEPROM
  getMLCKey : OTP → Key
  getUSBKey : SEEPROM → OTP → Key
  openDevice : String → Bool
  detect : String → Key → Bool
  getFile : String → Key → String → Option (Option File)
  closeThrows : Bool

/-- The input stream `input_file` (a `std::istream`): the bytes that can still be
extracted before end of file or an error, and whether an error flag is already set. -/
structure IStream where
  bytes : List Byte
  failed : Bool
  deriving DecidableEq, Repr

/-- Number of bytes the stream can still deliver. -/
def IStream.readable (s : IStream) : Nat :=
  if s.failed then 0 else s.bytes.length

/-- The call `input_file.read(buf, n)`: the characters stored and the stream afterwards.
With an error flag set nothing is extracted; otherwise `n` characters are extracted, or
all that are left, in which case the end-of-file and fail flags are set. -/
def IStream.read (s : IStream) (n : Nat) : List Byte × IStream :=
  if s.failed then ([], s)
  else if n ≤ s.bytes.length then (s.bytes.take n, { s with bytes := s.bytes.drop n })
  else (s.bytes, { bytes := [], failed := true })

/-- The two names the injection part of `main` uses without declaring them. -/
structure Inject where
  file_size : Nat
  input_file : IStream
  deriving DecidableEq, Repr

/-- Number of values of `size_t`. -/
def SIZE_MOD : Nat := 2 ^ 64

/-! ## Stages -/

/-- Result of a stretch of `main`: either `main` returned with a code, or control goes
on with a value; both carry the events of the stretch. -/
inductive Stage (α : Type)
  | ret (code : Int) (tr : List Event)
  | ok (a : α) (tr : List Event)
  deriving DecidableEq, Repr

/-- Sequencing of two stretches. -/
def Stage.bind {α β : Type} (s : Stage α) (k : α → Stage β) : Stage β :=
  match s with
  | .ret c tr => .ret c tr
  | .ok a tr =>
    match k a with
    | .ret c tr2 => .ret c (tr ++ tr2)
    | .ok b tr2 => .ok b (tr ++ tr2)

/-- Events of a stage. -/
def Stage.trace {α : Type} : Stage α → List Event
  | .ret _ tr => tr
  | .ok _ tr => tr

/-- Accumulator of lines 38 to 45: the flag `bad` and the lines printed so far. -/
structure Checked where
  bad : Bool
  errs : List Msg
  deriving DecidableEq, Repr

/-- One statement of the form `if (cond) { std::cerr << m; bad = true; }`. -/
def Checked.flag (c : Checked) (cond : Bool) (m : Msg) : Checked :=
  if cond then { bad := true, errs := c.errs ++ [m] } else c

/-- Lines 38 to 45. -/
def validate (vm : Options) : Checked :=
  let c : Checked := { bad := false, errs := [] }
  let c := c.flag (count vm.srcimage == 0) .missingSrcImage
  let c := c.flag (count vm.dstimage == 0) .missingDstImage
  let c := c.flag (count vm.srcotp == 0) .missingSrcOtp
  let c := c.flag (count vm.dstotp == 0) .missingDstOtp
  let c := c.flag (count vm.srcseeprom == 0 && countFlag vm.mlc == 0) .missingSrcSeeprom
  let c := c.flag (count vm.dstseeprom == 0 && countFlag vm.mlc == 0) .missingDstSeeprom
  let c := c.flag (decide (countFlag vm.mlc + countFlag vm.usb > 1)) .bothModes
  c

/-- Lines 38 to 50. -/
def checkOptions (vm : Options) : Stage Unit :=
  let c := validate vm
  if vm.help || c.bad then .ret 1 (c.errs.map Event.err ++ [Event.usage])
  else .ok () (c.errs.map Event.err)

/-- One statement of lines 56 and 57, inside the handler of line 59. A missing option
makes `as<std::string>()` throw, which the same handler catches. -/
def loadOTPFrom (env : Env) (arg : Option String) : Stage OTP :=
  match arg with
  | none => .ret 1 [.err .otpFailed]
  | some p =>
    match env.loadOTP p with
    | none => .ret 1 [.loadOTP p, .err .otpFailed]
    | some o => .ok o [.loadOTP p]

/-- One statement of lines 73 and 74, inside the handler of line 76. -/
def loadSEEPROMFrom (env : Env) (arg : Option String) : Stage SEEPROM :=
  match arg with
  | none => .ret 1 [.err .seepromFailed]
  | some p =>
    match env.loadSEEPROM p with
    | none => .ret 1 [.loadSEEPROM p, .err .seepromFailed]
    | some s => .ok s [.loadSEEPROM p]

/-- Lines 64 to 82: the pair `(srckey, dstkey)`. -/
def deriveKeys (env : Env) (vm : Options) (srcotp dstotp : OTP) : Stage (Key × Key) :=
  if countFlag vm.mlc != 0 then
    .ok (env.getMLCKey srcotp, env.getMLCKey dstotp) []
  else
    (loadSEEPROMFrom env vm.srcseeprom).bind fun srcseeprom =>
    (loadSEEPROMFrom env vm.dstseeprom).bind fun dstseeprom =>
    .ok (env.getUSBKey srcseeprom srcotp, env.getUSBKey dstseeprom dstotp) []

/-- Lines 52 to 82: both OTP files, then the keys. -/
def loadKeys (env : Env) (vm : Options) : Stage (Key × Key) :=
  (loadOTPFrom env vm.srcotp).bind fun srcotp =>
  (loadOTPFrom env vm.dstotp).bind fun dstotp =>
  deriveKeys env vm srcotp dstotp

/-- One statement of lines 84 and 85; an exception goes to the handler of line 119. -/
def openDeviceFrom (env : Env) (arg : Option String) : Stage String :=
  match arg with
  | none => .ret 1 [.err .exception]
  | some p =>
    if env.openDevice p then .ok p [.openDevice p]
    else .ret 1 [.openDevice p, .err .exception]

/-- One statement of lines 86 and 87. -/
def detectGeometry (env : Env) (device : String) (key : Key) : Stage Unit :=
  if env.detect device key then .ok () [.detect device key]
  else .ret 1 [.detect device key, .err .exception]

/-- Line 89: the session `Wfs(srcdevice, srckey)` is built, then the argument of
`GetFile` is evaluated; `vm["inject-path"]` is empty (`Options.inject_path`), so
`as<std::string>()` throws before `GetFile` is called, and the handler of line 119
prints the exception and returns 1. The statement never completes: it yields no value. -/
def lookupSource (device : String) (key : Key) : Stage Empty :=
  .ret 1 [.session device key, .err .exception]

/-- Lines 84 to 89, given the keys. The value of this stretch would be the handle `file`
of lines 91 to 116; since line 89 throws there is none, and lines 90 to 94 are not
executed. -/
def resolve (env : Env) (vm : Options) (keys : Key × Key) : Stage File :=
  (openDeviceFrom env vm.srcimage).bind fun srcdevice =>
  (openDeviceFrom env vm.dstimage).bind fun dstdevice =>
  (detectGeometry env srcdevice keys.1).bind fun _ =>
  (detectGeometry env dstdevice keys.2).bind fun _ =>
  (lookupSource srcdevice keys.1).bind fun unreached => nomatch unreached

/-- Lines 19 to 89: everything a run executes. -/
def prepare (env : Env) (vm : Options) : Stage File :=
  (checkOptions vm).bind fun _ =>
  (loadKeys env vm).bind fun keys =>
  resolve env vm keys

/-! ## The copy loop -/

/-- The value of `data.size()`: the buffer of line 100 has `0x2000` characters. -/
def DATA_SIZE : Nat := 0x2000

/-- Contents of the buffer `data`, by index. -/
abbrev Buffer := Nat → Byte

/-- The buffer after `input_file.read` stored the characters `got` at its start. -/
def Buffer.store (b : Buffer) (got : List Byte) : Buffer :=
  fun i => got.getD i (b i)

/-- The first `n` characters of the buffer, which is what `stream.write(buf, n)` takes. -/
def Buffer.first (b : Buffer) (n : Nat) : List Byte :=
  (List.range n).map b

/-- Variables of the loop of lines 102 to 111: the counter, the input stream, the
buffer `data`, and the buffers handed to `stream.write` so far. -/
structure Copy where
  to_copy : Nat
  input_file : IStream
  data : Buffer
  out : List (List Byte)

/-- Lines 103 to 110, one pass of the loop body: `Except.error` is the exit of line 107,
`Except.ok` is the state at the end of the body. -/
def loopBody (st : Copy) : Except Copy Copy :=
  let r := st.input_file.read (min DATA_SIZE st.to_copy)
  let data := st.data.store r.1
  let read := r.1.length
  if read ≤ 0 then
    .error { st with input_file := r.2, data := data }
  else
    .ok { to_copy := (st.to_copy + SIZE_MOD - read) % SIZE_MOD,
          input_file := r.2,
          data := data,
          out := st.out ++ [data.first read] }

/-- How the loop was left. -/
inductive LoopExit
  | finished
  | readFailed
  | outOfFuel
  deriving DecidableEq, Repr

/-- Lines 102 to 111 with at most `fuel` passes of the body. -/
def copyLoop : Nat → Copy → LoopExit × Copy
  | 0, st => if st.to_copy > 0 then (.outOfFuel, st) else (.finished, st)
  | fuel + 1, st =>
    if st.to_copy > 0 then
      match loopBody st with
      | .error st2 => (.readFailed, st2)
      | .ok st2 => copyLoop fuel st2
    else (.finished, st)

/-- State at the head of pass number `k` (counted from zero), when the loop gets there. -/
def headOf : Nat → Copy → Option Copy
  | 0, st => some st
  | k + 1, st =>
    if st.to_copy > 0 then
      match loopBody st with
      | .error _ => none
      | .ok st2 => headOf k st2
    else none

/-- Lines 100 and 101: the loop variables before the first pass. -/
def copyInit (inj : Inject) : Copy :=
  { to_copy := inj.file_size, input_file := inj.input_file,
    data := fun _ => 0, out := [] }

/-! ## The whole run -/

/-- What a run leaves behind: the exit status (`none` when the loop was cut short by the
fuel), the trace, and the handle `file` as it is at the end when there is one. -/
structure Outcome where
  exit : Option Int
  trace : List Event
  file : Option File
  deriving DecidableEq, Repr

/-- Lines 95 to 117 and 123, as a function of the handle `file` they work on. -/
def inject (env : Env) (inj : Inject) (file : File) (fuel : Nat) : Outcome :=
  if inj.file_size > file.sizeOnDisk then
    ⟨some 1, [.err (.tooBig inj.file_size file.sizeOnDisk)], some file⟩
  else
    let r := copyLoop fuel (copyInit inj)
    let writes := r.2.out.map (Event.write file)
    match r.1 with
    | .outOfFuel => ⟨none, [.streamOpen file] ++ writes, some file⟩
    | .readFailed => ⟨some 1, [.streamOpen file] ++ writes ++ [.err .readFailed], some file⟩
    | .finished =>
      if env.closeThrows then
        ⟨some 1, [.streamOpen file] ++ writes ++ [.inputClose, .streamClose file, .err .exception],
          some file⟩
      else if inj.file_size < file.size then
        ⟨some 0, [.streamOpen file] ++ writes ++
          [.inputClose, .streamClose file, .resize file inj.file_size, .done],
          some (file.Resize inj.file_size)⟩
      else
        ⟨some 0, [.streamOpen file] ++ writes ++ [.inputClose, .streamClose file, .done],
          some file⟩

/-- The function `main` of `wfs-recryptor/main.cpp`: lines 19 to 89, and lines 95 to 117
on the handle the former yield (they yield none, see `resolve`). -/
def main (env : Env) (vm : Options) (inj : Inject) (fuel : Nat) : Outcome :=
  match prepare env vm with
  | .ret c tr => ⟨some c, tr, none⟩
  | .ok file tr =>
    let o := inject env inj file fuel
    { o with trace := tr ++ o.trace }

/-! ## Reading a trace -/

/-- Whether the event loads a key file. -/
def Event.isKeyLoad : Event → Bool
  | .loadOTP _ => true
  | .loadSEEPROM _ => true
  | _ => false

/-- Whether the event loads a SEEPROM file. -/
def Event.isSeepromLoad : Event → Bool
  | .loadSEEPROM _ => true
  | _ => false

/-- Whether the event builds a filesystem session or looks a path up. -/
def Event.isSession : Event → Bool
  | .session _ _ => true
  | .getFile _ _ _ => true
  | _ => false

/-- Whether the event touches a file handle: opening the injection stream, writing,
closing it, resizing. -/
def Event.isMutation : Event → Bool
  | .streamOpen _ => true
  | .write _ _ => true
  | .streamClose _ => true
  | .resize _ _ => true
  | _ => false

/-- The device and key an event pairs, when it pairs some. -/
def Event.pairing : Event → Option (String × Key)
  | .detect d k => some (d, k)
  | .session d k => some (d, k)
  | .getFile d k _ => some (d, k)
  | _ => none

/-- All bytes handed to `stream.write`, in order. -/
def writtenBytes : List Event → List Byte
  | [] => []
  | .write _ buf :: rest => buf ++ writtenBytes rest
  | _ :: rest => writtenBytes rest

/-- The arguments of the calls of `Resize`, in order. -/
def resizeCalls : List Event → List Nat
  | [] => []
  | .resize _ n :: rest => n :: resizeCalls rest
  | _ :: rest => resizeCalls rest


/-! ## Shapes of events -/

/-- The keys of both sides were computed and both geometry detections succeeded. -/
def DetectedBoth (env : Env) (vm : Options) (keys : Key × Key) : Prop :=
  ∃ sd dd, vm.srcimage = some sd ∧ vm.dstimage = some dd ∧
    env.detect sd keys.1 = true ∧ env.detect dd keys.2 = true

/-- The device and the key belong to the same side: the source image with the source
key, or the destination image with the destination key. -/
def SameSide (vm : Options) (keys : Key × Key) (d : String) (k : Key) : Prop :=
  (vm.srcimage = some d ∧ k = keys.1) ∨ (vm.dstimage = some d ∧ k = keys.2)

/-- The events lines 84 to 89 can produce, given the keys. -/
def ResolveEvent (env : Env) (vm : Options) (keys : Key × Key) (e : Event) : Prop :=
  (∃ m, e = .err m) ∨ (∃ p, e = .openDevice p) ∨
    ∃ d k, SameSide vm keys d k ∧
      (e = .detect d k ∨
        (e = .session d k ∧ vm.srcimage = some d ∧ k = keys.1 ∧ DetectedBoth env vm keys))

/-- The events lines 19 to 89 can produce. -/
def PrepareEvent (env : Env) (vm : Options) (e : Event) : Prop :=
  (∃ m, e = .err m) ∨ e = .usage ∨ (∃ p, e = .loadOTP p) ∨
    ((∃ p, e = .loadSEEPROM p) ∧ vm.mlc = false) ∨
    ∃ keys tk, loadKeys env vm = .ok keys tk ∧ ResolveEvent env vm keys e

/-! ## Words of the contract -/

/-- The key of one side as the derivation of that side alone: the MLC key of its OTP,
or the USB key of its SEEPROM and its OTP. -/
def sideKey (getMLCKey : OTP → Key) (getUSBKey : SEEPROM → OTP → Key) (mlc : Bool)
    (otp : Option OTP) (seeprom : Option SEEPROM) : Option Key :=
  match otp with
  | none => none
  | some o =>
    if mlc then some (getMLCKey o)
    else
      match seeprom with
      | none => none
      | some s => some (getUSBKey s o)

/-- Loading the source or the destination OTP file fails. -/
def otpLoadFails (env : Env) (vm : Options) : Bool :=
  (vm.srcotp.bind env.loadOTP).isNone || (vm.dstotp.bind env.loadOTP).isNone

/-- The run is in USB mode and loading the source or the destination SEEPROM file
fails. -/
def seepromLoadFails (env : Env) (vm : Options) : Bool :=
  !vm.mlc && ((vm.srcseeprom.bind env.loadSEEPROM).isNone ||
    (vm.dstseeprom.bind env.loadSEEPROM).isNone)

/-- Geometry detection throws on the source device with the source key or on the
destination device with the destination key. -/
def detectFails (env : Env) (vm : Options) : Bool :=
  match loadKeys env vm, vm.srcimage, vm.dstimage with
  | .ok keys _, some sd, some dd => !env.detect sd keys.1 || !env.detect dd keys.2
  | _, _, _ => false

/-- The handle is what the lookup in the destination filesystem returns: `GetFile` on
the session of the destination image and the destination key. -/
def ResolvedInDestination (env : Env) (vm : Options) (f : File) : Prop :=
  ∃ keys tk dd p, loadKeys env vm = .ok keys tk ∧ vm.dstimage = some dd ∧
    vm.inject_path = some p ∧ env.getFile dd keys.2 p = some (some f)

/-! ## A concrete installation

Two 32-byte OTP files, two SEEPROM files, two images; the destination image holds the
entry `/update/patch.bin` with 4096 bytes allocated, the source image holds an entry of
the same path with another extent. -/

/-- The entry of the destination image. -/
def demoFile : File := { entry := 7, size := 4096, sizeOnDisk := 4096 }

/-- The entry of the same path in the source image. -/
def demoSrcFile : File := { entry := 5, size := 100, sizeOnDisk := 8192 }

/-- Files and library of the concrete installation. -/
def demoEnv : Env :=
  { loadOTP := fun p =>
      if p = "src.otp" then some ⟨List.replicate 32 1⟩
      else if p = "dst.otp" then some ⟨List.replicate 32 2⟩ else none,
    loadSEEPROM := fun p =>
      if p = "src.seeprom" then some ⟨[3]⟩
      else if p = "dst.seeprom" then some ⟨[4]⟩ else none,
    getMLCKey := fun o => o.raw.take 2,
    getUSBKey := fun s o => s.raw ++ o.raw.take 2,
    openDevice := fun _ => true,
    detect := fun _ _ => true,
    getFile := fun d _ p =>
      if d = "dst.img" && p = "/update/patch.bin" then some (some demoFile)
      else if d = "src.img" && p = "/update/patch.bin" then some (some demoSrcFile)
      else some none,
    closeThrows := false }

/-- A larger entry: 8192 bytes allocated, 6000 in use. -/
def demoLargeFile : File := { entry := 7, size := 6000, sizeOnDisk := 8192 }

/-- The same installation with a destination OTP file that does not load. -/
def demoEnvBadOtp : Env :=
  { demoEnv with
    loadOTP := (fun p => if p = "src.otp" then some ⟨List.replicate 32 1⟩ else none) }

/-- The same installation with another source OTP and another source SEEPROM. -/
def demoEnvOtherSrc : Env :=
  { demoEnv with
    loadOTP := (fun p =>
      if p = "src.otp" then some ⟨List.replicate 32 9⟩
      else if p = "dst.otp" then some ⟨List.replicate 32 2⟩ else none),
    loadSEEPROM := (fun p =>
      if p = "src.seeprom" then some ⟨[8]⟩
      else if p = "dst.seeprom" then some ⟨[4]⟩ else none) }

/-- Command line with `--mlc` and no SEEPROM paths. -/
def vmMlc : Options :=
  { help := false, srcimage := some "src.img", dstimage := some "dst.img",
    srcotp := some "src.otp", dstotp := some "dst.otp",
    srcseeprom := none, dstseeprom := none, mlc := true, usb := false }

/-- Command line with neither `--mlc` nor `--usb`, and all six paths. -/
def vmNeither : Options :=
  { vmMlc with mlc := false, srcseeprom := some "src.seeprom",
               dstseeprom := some "dst.seeprom" }

/-- Command line with `--usb` and all six paths. -/
def vmUsb : Options :=
  { vmNeither with usb := true }

/-- Command line with both `--mlc` and `--usb`. -/
def vmBoth : Options :=
  { vmNeither with mlc := true, usb := true }

/-- Command line with `--usb` and no source SEEPROM path. -/
def vmUsbNoSeeprom : Options :=
  { vmUsb with srcseeprom := none }

/-- Events of the run on `vmMlc` in the concrete installation. -/
def demoTrace : List Event :=
  [.loadOTP "src.otp", .loadOTP "dst.otp", .openDevice "src.img", .openDevice "dst.img",
    .detect "src.img" [1, 1], .detect "dst.img" [2, 2],
    .session "src.img" [1, 1], .err .exception]

/-- Replacement content: 4096 bytes of `0xAA`, declared as 4096 bytes. -/
def demoInject : Inject :=
  { file_size := 4096, input_file := { bytes := List.replicate 4096 0xAA, failed := false } }

/-- Replacement content declared as 5000 bytes of which 4096 are readable. -/
def demoShort : Inject :=
  { file_size := 5000, input_file := { bytes := List.replicate 4096 0xAA, failed := false } }

/-- Replacement content declared one byte larger than the extent. -/
def demoTooBig : Inject :=
  { file_size := 4097, input_file := { bytes := List.replicate 4097 0xAA, failed := false } }

/-- Three bytes of replacement content. -/
def demoSmall : Inject :=
  { file_size := 3, input_file := { bytes := [9, 9, 9], failed := false } }

/-! ## The input stream and the buffer -/

theorem IStream.read_length_le (s : IStream) (n : Nat) : (s.read n).1.length ≤ n := by
  unfold IStream.read
  split
  · simp
  · split
    · simp
    · simp only; omega

theorem IStream.read_of_le (s : IStream) (n : Nat) (hf : s.failed = false)
    (hn : n ≤ s.bytes.length) :
    s.read n = (s.bytes.take n, { bytes := s.bytes.drop n, failed := false }) := by
  cases s with
  | mk bytes failed =>
    simp only at hf hn
    subst hf
    simp [IStream.read, hn]

theorem IStream.read_of_gt (s : IStream) (n : Nat) (hf : s.failed = false)
    (hn : s.bytes.length < n) :
    s.read n = (s.bytes, { bytes := [], failed := true }) := by
  have : ¬ n ≤ s.bytes.length := by omega
  simp [IStream.read, hf, this]

theorem IStream.read_of_failed (s : IStream) (n : Nat) (hf : s.failed = true) :
    s.read n = ([], s) := by
  simp [IStream.read, hf]

theorem Buffer.first_store (b : Buffer) (got : List Byte) :
    (b.store got).first got.length = got := by
  apply List.ext_getElem
  · simp [Buffer.first]
  · intro n h1 h2
    simp [Buffer.first, Buffer.store, List.getElem?_eq_getElem h2]

/-- The characters the next pass of the loop body extracts. -/
theorem loopBody_eq (st : Copy) :
    loopBody st =
      if (st.input_file.read (min DATA_SIZE st.to_copy)).1.length = 0 then
        .error { st with
          input_file := (st.input_file.read (min DATA_SIZE st.to_copy)).2,
          data := st.data.store (st.input_file.read (min DATA_SIZE st.to_copy)).1 }
      else
        .ok { to_copy := (st.to_copy + SIZE_MOD -
                (st.input_file.read (min DATA_SIZE st.to_copy)).1.length) % SIZE_MOD,
              input_file := (st.input_file.read (min DATA_SIZE st.to_copy)).2,
              data := st.data.store (st.input_file.read (min DATA_SIZE st.to_copy)).1,
              out := st.out ++ [(st.input_file.read (min DATA_SIZE st.to_copy)).1] } := by
  simp only [loopBody, Buffer.first_store, Nat.le_zero]

theorem loopBody_ok (st st2 : Copy) (hlt : st.to_copy < SIZE_MOD) (h : loopBody st = .ok st2) :
    ∃ got : List Byte,
      (st.input_file.read (min DATA_SIZE st.to_copy)) = (got, st2.input_file) ∧
      1 ≤ got.length ∧ got.length ≤ min DATA_SIZE st.to_copy ∧
      st2.to_copy = st.to_copy - got.length ∧ st2.out = st.out ++ [got] := by
  rw [loopBody_eq] at h
  have hle := IStream.read_length_le st.input_file (min DATA_SIZE st.to_copy)
  have hm : min DATA_SIZE st.to_copy ≤ st.to_copy := Nat.min_le_right _ _
  generalize st.input_file.read (min DATA_SIZE st.to_copy) = r at h hle
  split at h
  · cases h
  · rename_i hne
    injection h with h
    subst h
    refine ⟨r.1, rfl, by omega, hle, ?_, rfl⟩
    simp only [SIZE_MOD] at hlt ⊢
    omega

/-! ## The copy loop -/

theorem copyLoop_of_zero (fuel : Nat) (st : Copy) (h : st.to_copy = 0) :
    copyLoop fuel st = (.finished, st) := by
  cases fuel <;> simp [copyLoop, h]

theorem copyLoop_succ (fuel : Nat) (st : Copy) (h : 0 < st.to_copy) :
    copyLoop (fuel + 1) st =
      match loopBody st with
      | .error st2 => (.readFailed, st2)
      | .ok st2 => copyLoop fuel st2 := by
  simp [copyLoop, h]

theorem DATA_SIZE_pos : 0 < DATA_SIZE := by decide

/-- With as much fuel as the counter the loop is never cut short, and when it is left
through its test the counter is zero. -/
theorem copyLoop_terminates : ∀ (fuel : Nat) (st : Copy),
    st.to_copy < SIZE_MOD → st.to_copy ≤ fuel →
    (copyLoop fuel st).1 ≠ .outOfFuel ∧
      ((copyLoop fuel st).1 = .finished → (copyLoop fuel st).2.to_copy = 0) := by
  intro fuel
  induction fuel with
  | zero =>
    intro st _ hle
    have h0 : st.to_copy = 0 := by omega
    simp [copyLoop_of_zero _ _ h0, h0]
  | succ fuel ih =>
    intro st hlt hle
    by_cases h0 : st.to_copy = 0
    · simp [copyLoop_of_zero _ _ h0, h0]
    · rw [copyLoop_succ _ _ (by omega)]
      cases hb : loopBody st with
      | error st2 => simp
      | ok st2 =>
        obtain ⟨got, _, h1, _, h3, _⟩ := loopBody_ok st st2 hlt hb
        exact ih st2 (by omega) (by omega)

/-- A source that still holds as many bytes as the counter asks for is copied to the
end: the loop is left through its test and has handed over exactly those bytes. -/
theorem copyLoop_complete : ∀ (fuel : Nat) (st : Copy),
    st.to_copy < SIZE_MOD → st.to_copy ≤ fuel → st.to_copy ≤ st.input_file.readable →
    ∃ st2, copyLoop fuel st = (.finished, st2) ∧ st2.to_copy = 0 ∧
      st2.out.flatten = st.out.flatten ++ st.input_file.bytes.take st.to_copy := by
  intro fuel
  induction fuel with
  | zero =>
    intro st _ hle _
    have h0 : st.to_copy = 0 := by omega
    exact ⟨st, copyLoop_of_zero _ _ h0, h0, by simp [h0]⟩
  | succ fuel ih =>
    intro st hlt hle hrd
    by_cases h0 : st.to_copy = 0
    · exact ⟨st, copyLoop_of_zero _ _ h0, h0, by simp [h0]⟩
    · have hf : st.input_file.failed = false := by
        cases hc : st.input_file.failed with
        | false => rfl
        | true => simp [IStream.readable, hc] at hrd; omega
      have hlen : st.to_copy ≤ st.input_file.bytes.length := by
        simpa [IStream.readable, hf] using hrd
      have hm1 : min DATA_SIZE st.to_copy ≤ st.to_copy := Nat.min_le_right _ _
      have hm2 : 0 < min DATA_SIZE st.to_copy := Nat.lt_min.mpr ⟨DATA_SIZE_pos, by omega⟩
      have hread := IStream.read_of_le st.input_file (min DATA_SIZE st.to_copy) hf (by omega)
      have hgl : (st.input_file.bytes.take (min DATA_SIZE st.to_copy)).length =
          min DATA_SIZE st.to_copy := by
        rw [List.length_take]; omega
      rw [copyLoop_succ _ _ (by omega), loopBody_eq, hread]
      simp only [hgl]
      rw [if_neg (by omega)]
      simp only
      have hsub : (st.to_copy + SIZE_MOD - min DATA_SIZE st.to_copy) % SIZE_MOD =
          st.to_copy - min DATA_SIZE st.to_copy := by
        simp only [SIZE_MOD] at hlt ⊢
        omega
      rw [hsub]
      obtain ⟨st2, hst2, hz, hout⟩ := ih
        { to_copy := st.to_copy - min DATA_SIZE st.to_copy,
          input_file := { bytes := st.input_file.bytes.drop (min DATA_SIZE st.to_copy),
                          failed := false },
          data := st.data.store (st.input_file.bytes.take (min DATA_SIZE st.to_copy)),
          out := st.out ++ [st.input_file.bytes.take (min DATA_SIZE st.to_copy)] }
        (by simp only; omega) (by simp only; omega)
        (by simp only [IStream.readable, List.length_drop]; simp; omega)
      refine ⟨st2, hst2, hz, ?_⟩
      rw [hout]
      simp only [List.flatten_append, List.flatten_cons, List.flatten_nil, List.append_nil,
        List.append_assoc]
      congr 1
      have := List.take_add st.input_file.bytes (min DATA_SIZE st.to_copy)
        (st.to_copy - min DATA_SIZE st.to_copy)
      rw [← this]
      congr 1
      omega

/-- A source that holds fewer bytes than the counter asks for makes the loop leave
through line 107, after it handed over every byte the source had. -/
theorem copyLoop_truncated : ∀ (fuel : Nat) (st : Copy),
    st.to_copy < SIZE_MOD → st.to_copy ≤ fuel → st.input_file.readable < st.to_copy →
    (copyLoop fuel st).1 = .readFailed ∧
      (copyLoop fuel st).2.out.flatten =
        st.out.flatten ++ (if st.input_file.failed then [] else st.input_file.bytes) := by
  intro fuel
  induction fuel with
  | zero =>
    intro st _ hle hrd
    omega
  | succ fuel ih =>
    intro st hlt hle hrd
    have hpos : 0 < st.to_copy := by omega
    have hm1 : min DATA_SIZE st.to_copy ≤ st.to_copy := Nat.min_le_right _ _
    have hm2 : 0 < min DATA_SIZE st.to_copy := Nat.lt_min.mpr ⟨DATA_SIZE_pos, hpos⟩
    rw [copyLoop_succ _ _ hpos, loopBody_eq]
    cases hc : st.input_file.failed with
    | true =>
      rw [IStream.read_of_failed _ _ hc]
      simp
    | false =>
      have hlen : st.input_file.bytes.length < st.to_copy := by
        simpa [IStream.readable, hc] using hrd
      by_cases hn : min DATA_SIZE st.to_copy ≤ st.input_file.bytes.length
      · have hgl : (st.input_file.bytes.take (min DATA_SIZE st.to_copy)).length =
            min DATA_SIZE st.to_copy := by
          rw [List.length_take]; omega
        rw [IStream.read_of_le _ _ hc hn]
        simp only [hgl]
        rw [if_neg (by omega)]
        simp only
        have hsub : (st.to_copy + SIZE_MOD - min DATA_SIZE st.to_copy) % SIZE_MOD =
            st.to_copy - min DATA_SIZE st.to_copy := by
          simp only [SIZE_MOD] at hlt ⊢
          omega
        rw [hsub]
        obtain ⟨h1, h2⟩ := ih
          { to_copy := st.to_copy - min DATA_SIZE st.to_copy,
            input_file := { bytes := st.input_file.bytes.drop (min DATA_SIZE st.to_copy),
                            failed := false },
            data := st.data.store (st.input_file.bytes.take (min DATA_SIZE st.to_copy)),
            out := st.out ++ [st.input_file.bytes.take (min DATA_SIZE st.to_copy)] }
          (by simp only; omega) (by simp only; omega)
          (by simp only [IStream.readable, List.length_drop]; simp; omega)
        refine ⟨h1, ?_⟩
        rw [h2]
        simp
      · rw [IStream.read_of_gt _ _ hc (by omega)]
        by_cases hz : st.input_file.bytes.length = 0
        · have hnil : st.input_file.bytes = [] := List.length_eq_zero.mp hz
          simp [hnil]
        · simp only
          rw [if_neg hz]
          simp only
          have hsub : (st.to_copy + SIZE_MOD - st.input_file.bytes.length) % SIZE_MOD =
              st.to_copy - st.input_file.bytes.length := by
            simp only [SIZE_MOD] at hlt ⊢
            omega
          rw [hsub]
          obtain ⟨h1, h2⟩ := ih
            { to_copy := st.to_copy - st.input_file.bytes.length,
              input_file := { bytes := [], failed := true },
              data := st.data.store st.input_file.bytes,
              out := st.out ++ [st.input_file.bytes] }
            (by simp only; omega) (by simp only; omega)
            (by simp only [IStream.readable]; simp; omega)
          refine ⟨h1, ?_⟩
          rw [h2]
          simp

/-- What holds at the head of every pass: the counter stays a `size_t`, bytes handed
over plus counter is constant, and pass number `k` starts with at least `k` bytes less
to copy. -/
theorem headOf_inv : ∀ (k : Nat) (st st2 : Copy),
    st.to_copy < SIZE_MOD → headOf k st = some st2 →
    st2.to_copy < SIZE_MOD ∧
      st2.out.flatten.length + st2.to_copy = st.out.flatten.length + st.to_copy ∧
      k + st2.to_copy ≤ st.to_copy := by
  intro k
  induction k with
  | zero =>
    intro st st2 hlt h
    simp only [headOf, Option.some.injEq] at h
    subst h
    exact ⟨hlt, rfl, by omega⟩
  | succ k ih =>
    intro st st2 hlt h
    simp only [headOf] at h
    split at h
    · cases hb : loopBody st with
      | error e => simp [hb] at h
      | ok st1 =>
        simp only [hb] at h
        obtain ⟨got, _, h1, h2, h3, h4⟩ := loopBody_ok st st1 hlt hb
        have hm1 : min DATA_SIZE st.to_copy ≤ st.to_copy := Nat.min_le_right _ _
        obtain ⟨i1, i2, i3⟩ := ih st1 st2 (by omega) h
        refine ⟨i1, ?_, by omega⟩
        rw [i2, h4]
        simp only [List.flatten_append, List.flatten_cons, List.flatten_nil, List.append_nil,
          List.length_append]
        omega
    · cases h

/-! ## Stages -/

theorem Stage.bind_eq_ok {α β : Type} (s : Stage α) (k : α → Stage β) (b : β)
    (tr : List Event) :
    s.bind k = .ok b tr ↔ ∃ a t1 t2, s = .ok a t1 ∧ k a = .ok b t2 ∧ tr = t1 ++ t2 := by
  cases s with
  | ret c t =>
    constructor
    · intro h
      simp [Stage.bind] at h
    · rintro ⟨a, t1, t2, h, _⟩
      cases h
  | ok a t =>
    constructor
    · intro h
      cases hk : k a with
      | ret c t2 => simp [Stage.bind, hk] at h
      | ok b2 t2 =>
        simp only [Stage.bind, hk, Stage.ok.injEq] at h
        obtain ⟨rfl, rfl⟩ := h
        exact ⟨a, t, t2, rfl, hk, rfl⟩
    · rintro ⟨a2, t1, t2, h1, h2, rfl⟩
      cases h1
      simp [Stage.bind, h2]

theorem Stage.bind_eq_ret {α β : Type} (s : Stage α) (k : α → Stage β) (c : Int)
    (tr : List Event) :
    s.bind k = .ret c tr ↔
      s = .ret c tr ∨ ∃ a t1 t2, s = .ok a t1 ∧ k a = .ret c t2 ∧ tr = t1 ++ t2 := by
  cases s with
  | ret c2 t =>
    constructor
    · intro h
      left
      simpa [Stage.bind] using h
    · rintro (h | ⟨a, t1, t2, h, _⟩)
      · simpa [Stage.bind] using h
      · cases h
  | ok a t =>
    constructor
    · intro h
      right
      cases hk : k a with
      | ok b2 t2 => simp [Stage.bind, hk] at h
      | ret c2 t2 =>
        simp only [Stage.bind, hk, Stage.ret.injEq] at h
        obtain ⟨rfl, rfl⟩ := h
        exact ⟨a, t, t2, rfl, hk, rfl⟩
    · rintro (h | ⟨a2, t1, t2, h1, h2, rfl⟩)
      · cases h
      · cases h1
        simp [Stage.bind, h2]

/-- Every event of a sequence of two stretches belongs to one of them. -/
theorem Stage.all_bind {α β : Type} (P : Event → Prop) (s : Stage α) (k : α → Stage β)
    (hs : ∀ e ∈ s.trace, P e) (hk : ∀ a t, s = .ok a t → ∀ e ∈ (k a).trace, P e) :
    ∀ e ∈ (s.bind k).trace, P e := by
  cases s with
  | ret c t => simpa [Stage.bind, Stage.trace] using hs
  | ok a t =>
    have hka := hk a t rfl
    cases hkk : k a with
    | ret c t2 =>
      simp only [Stage.bind, hkk, Stage.trace, List.mem_append]
      simp only [hkk, Stage.trace] at hka
      simp only [Stage.trace] at hs
      rintro e (h | h)
      · exact hs e h
      · exact hka e h
    | ok b t2 =>
      simp only [Stage.bind, hkk, Stage.trace, List.mem_append]
      simp only [hkk, Stage.trace] at hka
      simp only [Stage.trace] at hs
      rintro e (h | h)
      · exact hs e h
      · exact hka e h

/-- A sequence of two stretches that only return `1` only returns `1`. -/
theorem Stage.ret_one_bind {α β : Type} (s : Stage α) (k : α → Stage β)
    (hs : ∀ c tr, s = .ret c tr → c = 1) (hk : ∀ a c tr, k a = .ret c tr → c = 1) :
    ∀ c tr, s.bind k = .ret c tr → c = 1 := by
  intro c tr h
  rw [Stage.bind_eq_ret] at h
  rcases h with h | ⟨a, t1, t2, _, h2, _⟩
  · exact hs c tr h
  · exact hk a c t2 h2

theorem Checked.flag_bad (c : Checked) (cond : Bool) (m : Msg) :
    (c.flag cond m).bad = (c.bad || cond) := by
  cases cond <;> simp [Checked.flag]

theorem Checked.flag_errs (c : Checked) (cond : Bool) (m : Msg)
    (hc : c.bad = false → c.errs = []) :
    (c.flag cond m).bad = false → (c.flag cond m).errs = [] := by
  cases cond
  · simpa [Checked.flag] using hc
  · simp [Checked.flag]

theorem count_beq_zero (o : Option String) : (count o == 0) = o.isNone := by
  cases o <;> simp [count]

theorem countFlag_beq_zero (b : Bool) : (countFlag b == 0) = !b := by
  cases b <;> simp [countFlag]

theorem countFlag_both (a b : Bool) : decide (countFlag a + countFlag b > 1) = (a && b) := by
  cases a <;> cases b <;> simp [countFlag]

/-- The flag `bad` of lines 38 to 45 as one boolean expression. -/
theorem validate_bad (vm : Options) :
    (validate vm).bad =
      (vm.srcimage.isNone || vm.dstimage.isNone || vm.srcotp.isNone || vm.dstotp.isNone ||
        (vm.srcseeprom.isNone && !vm.mlc) || (vm.dstseeprom.isNone && !vm.mlc) ||
        (vm.mlc && vm.usb)) := by
  simp only [validate, Checked.flag_bad, count_beq_zero, countFlag_beq_zero, countFlag_both,
    Bool.false_or]

theorem validate_errs (vm : Options) (h : (validate vm).bad = false) :
    (validate vm).errs = [] := by
  revert h
  simp only [validate]
  repeat' apply Checked.flag_errs
  simp

theorem checkOptions_eq_ok (vm : Options) (u : Unit) (tr : List Event) :
    checkOptions vm = .ok u tr ↔ vm.help = false ∧ (validate vm).bad = false ∧ tr = [] := by
  simp only [checkOptions]
  cases hh : vm.help
  · cases hb : (validate vm).bad
    · simp only [Bool.or_self, Bool.false_eq_true, if_false, validate_errs vm hb, List.map_nil,
        Stage.ok.injEq, true_and]
      constructor
      · intro h
        exact h.symm
      · intro h
        exact h.symm
    · simp
  · simp

theorem checkOptions_ret (vm : Options) (c : Int) (tr : List Event)
    (h : checkOptions vm = .ret c tr) :
    c = 1 ∧ tr = (validate vm).errs.map Event.err ++ [Event.usage] := by
  simp only [checkOptions] at h
  split at h
  · injection h with h1 h2
    exact ⟨h1.symm, h2.symm⟩
  · cases h

theorem loadOTPFrom_eq_ok (env : Env) (arg : Option String) (o : OTP) (tr : List Event) :
    loadOTPFrom env arg = .ok o tr ↔
      ∃ p, arg = some p ∧ env.loadOTP p = some o ∧ tr = [.loadOTP p] := by
  cases arg with
  | none => simp [loadOTPFrom]
  | some p =>
    cases h : env.loadOTP p with
    | none =>
      simp only [loadOTPFrom, h]
      constructor
      · intro h2
        cases h2
      · rintro ⟨p2, hp, ho, _⟩
        cases hp
        rw [h] at ho
        cases ho
    | some o2 =>
      simp only [loadOTPFrom, h, Stage.ok.injEq]
      constructor
      · rintro ⟨rfl, rfl⟩
        exact ⟨p, rfl, h, rfl⟩
      · rintro ⟨p2, hp, ho, rfl⟩
        cases hp
        rw [h] at ho
        cases ho
        exact ⟨rfl, rfl⟩

theorem loadSEEPROMFrom_eq_ok (env : Env) (arg : Option String) (s : SEEPROM)
    (tr : List Event) :
    loadSEEPROMFrom env arg = .ok s tr ↔
      ∃ p, arg = some p ∧ env.loadSEEPROM p = some s ∧ tr = [.loadSEEPROM p] := by
  cases arg with
  | none => simp [loadSEEPROMFrom]
  | some p =>
    cases h : env.loadSEEPROM p with
    | none =>
      simp only [loadSEEPROMFrom, h]
      constructor
      · intro h2
        cases h2
      · rintro ⟨p2, hp, ho, _⟩
        cases hp
        rw [h] at ho
        cases ho
    | some o2 =>
      simp only [loadSEEPROMFrom, h, Stage.ok.injEq]
      constructor
      · rintro ⟨rfl, rfl⟩
        exact ⟨p, rfl, h, rfl⟩
      · rintro ⟨p2, hp, ho, rfl⟩
        cases hp
        rw [h] at ho
        cases ho
        exact ⟨rfl, rfl⟩

theorem openDeviceFrom_eq_ok (env : Env) (arg : Option String) (d : String)
    (tr : List Event) :
    openDeviceFrom env arg = .ok d tr ↔
      arg = some d ∧ env.openDevice d = true ∧ tr = [.openDevice d] := by
  cases arg with
  | none => simp [openDeviceFrom]
  | some p =>
    cases h : env.openDevice p with
    | false =>
      simp only [openDeviceFrom, h, Bool.false_eq_true, if_false]
      constructor
      · intro h2
        cases h2
      · rintro ⟨hp, ho, _⟩
        cases hp
        rw [h] at ho
        cases ho
    | true =>
      simp only [openDeviceFrom, h, if_true, Stage.ok.injEq]
      constructor
      · rintro ⟨rfl, rfl⟩
        exact ⟨rfl, h, rfl⟩
      · rintro ⟨hp, _, rfl⟩
        cases hp
        exact ⟨rfl, rfl⟩

theorem detectGeometry_eq_ok (env : Env) (d : String) (key : Key) (u : Unit)
    (tr : List Event) :
    detectGeometry env d key = .ok u tr ↔ env.detect d key = true ∧ tr = [.detect d key] := by
  cases h : env.detect d key with
  | false => simp [detectGeometry, h]
  | true =>
    simp only [detectGeometry, h, if_true, Stage.ok.injEq, true_and]
    constructor
    · rintro rfl
      rfl
    · rintro rfl
      rfl

theorem Options.inject_path_none (vm : Options) : vm.inject_path = none := by
  simp [Options.inject_path, Options.entry]

/-! ## Which events a stage can produce -/

theorem checkOptions_mem (vm : Options) :
    ∀ e ∈ (checkOptions vm).trace, (∃ m, e = .err m) ∨ e = .usage := by
  intro e he
  simp only [checkOptions] at he
  split at he
  · simp only [Stage.trace, List.mem_append, List.mem_map, List.mem_singleton] at he
    rcases he with ⟨m, _, rfl⟩ | rfl
    · exact Or.inl ⟨m, rfl⟩
    · exact Or.inr rfl
  · simp only [Stage.trace, List.mem_map] at he
    obtain ⟨m, _, rfl⟩ := he
    exact Or.inl ⟨m, rfl⟩

theorem loadOTPFrom_mem (env : Env) (arg : Option String) :
    ∀ e ∈ (loadOTPFrom env arg).trace, (∃ p, e = .loadOTP p) ∨ ∃ m, e = .err m := by
  intro e he
  unfold loadOTPFrom at he
  split at he
  · simp only [Stage.trace, List.mem_singleton] at he
    exact Or.inr ⟨_, he⟩
  · split at he <;> simp only [Stage.trace, List.mem_cons, List.mem_singleton,
      List.not_mem_nil, or_false] at he
    · rcases he with rfl | rfl
      · exact Or.inl ⟨_, rfl⟩
      · exact Or.inr ⟨_, rfl⟩
    · exact Or.inl ⟨_, he⟩

theorem loadSEEPROMFrom_mem (env : Env) (arg : Option String) :
    ∀ e ∈ (loadSEEPROMFrom env arg).trace, (∃ p, e = .loadSEEPROM p) ∨ ∃ m, e = .err m := by
  intro e he
  unfold loadSEEPROMFrom at he
  split at he
  · simp only [Stage.trace, List.mem_singleton] at he
    exact Or.inr ⟨_, he⟩
  · split at he <;> simp only [Stage.trace, List.mem_cons, List.mem_singleton,
      List.not_mem_nil, or_false] at he
    · rcases he with rfl | rfl
      · exact Or.inl ⟨_, rfl⟩
      · exact Or.inr ⟨_, rfl⟩
    · exact Or.inl ⟨_, he⟩

theorem openDeviceFrom_mem (env : Env) (arg : Option String) :
    ∀ e ∈ (openDeviceFrom env arg).trace, (∃ p, e = .openDevice p) ∨ ∃ m, e = .err m := by
  intro e he
  unfold openDeviceFrom at he
  split at he
  · simp only [Stage.trace, List.mem_singleton] at he
    exact Or.inr ⟨_, he⟩
  · split at he <;> simp only [Stage.trace, List.mem_cons, List.mem_singleton,
      List.not_mem_nil, or_false] at he
    · exact Or.inl ⟨_, he⟩
    · rcases he with rfl | rfl
      · exact Or.inl ⟨_, rfl⟩
      · exact Or.inr ⟨_, rfl⟩

theorem detectGeometry_mem (env : Env) (d : String) (key : Key) :
    ∀ e ∈ (detectGeometry env d key).trace, e = .detect d key ∨ ∃ m, e = .err m := by
  intro e he
  unfold detectGeometry at he
  split at he <;> simp only [Stage.trace, List.mem_cons, List.mem_singleton,
    List.not_mem_nil, or_false] at he
  · exact Or.inl he
  · rcases he with rfl | rfl
    · exact Or.inl rfl
    · exact Or.inr ⟨_, rfl⟩

theorem countFlag_bne_zero (b : Bool) : (countFlag b != 0) = b := by
  cases b <;> simp [countFlag]

theorem deriveKeys_mem (env : Env) (vm : Options) (so d : OTP) :
    ∀ e ∈ (deriveKeys env vm so d).trace,
      ((∃ p, e = .loadSEEPROM p) ∧ vm.mlc = false) ∨ ∃ m, e = .err m := by
  unfold deriveKeys
  rw [countFlag_bne_zero]
  cases hm : vm.mlc with
  | true => simp [Stage.trace]
  | false =>
    simp only [Bool.false_eq_true, if_false]
    apply Stage.all_bind
    · intro e he
      rcases loadSEEPROMFrom_mem env _ e he with h | h
      · exact Or.inl ⟨h, trivial⟩
      · exact Or.inr h
    · intro ss _ _
      apply Stage.all_bind
      · intro e he
        rcases loadSEEPROMFrom_mem env _ e he with h | h
        · exact Or.inl ⟨h, trivial⟩
        · exact Or.inr h
      · intro ds _ _ e he
        simp [Stage.trace] at he

theorem loadKeys_mem (env : Env) (vm : Options) :
    ∀ e ∈ (loadKeys env vm).trace,
      (∃ p, e = .loadOTP p) ∨ ((∃ p, e = .loadSEEPROM p) ∧ vm.mlc = false) ∨ ∃ m, e = .err m := by
  unfold loadKeys
  apply Stage.all_bind
  · intro e he
    rcases loadOTPFrom_mem env _ e he with h | h
    · exact Or.inl h
    · exact Or.inr (Or.inr h)
  · intro so _ _
    apply Stage.all_bind
    · intro e he
      rcases loadOTPFrom_mem env _ e he with h | h
      · exact Or.inl h
      · exact Or.inr (Or.inr h)
    · intro d _ _ e he
      exact Or.inr (deriveKeys_mem env vm so d e he)

theorem resolve_mem (env : Env) (vm : Options) (keys : Key × Key) :
    ∀ e ∈ (resolve env vm keys).trace, ResolveEvent env vm keys e := by
  unfold resolve
  apply Stage.all_bind
  · intro e he
    rcases openDeviceFrom_mem env _ e he with h | h
    · exact Or.inr (Or.inl h)
    · exact Or.inl h
  · intro sd t1 h1
    rw [openDeviceFrom_eq_ok] at h1
    apply Stage.all_bind
    · intro e he
      rcases openDeviceFrom_mem env _ e he with h | h
      · exact Or.inr (Or.inl h)
      · exact Or.inl h
    · intro dd t2 h2
      rw [openDeviceFrom_eq_ok] at h2
      apply Stage.all_bind
      · intro e he
        rcases detectGeometry_mem env _ _ e he with h | h
        · exact Or.inr (Or.inr ⟨sd, keys.1, Or.inl ⟨h1.1, rfl⟩, Or.inl h⟩)
        · exact Or.inl h
      · intro _ t3 h3
        rw [detectGeometry_eq_ok] at h3
        apply Stage.all_bind
        · intro e he
          rcases detectGeometry_mem env _ _ e he with h | h
          · exact Or.inr (Or.inr ⟨dd, keys.2, Or.inr ⟨h2.1, rfl⟩, Or.inl h⟩)
          · exact Or.inl h
        · intro _ t4 h4
          rw [detectGeometry_eq_ok] at h4
          have hdet : DetectedBoth env vm keys := ⟨sd, dd, h1.1, h2.1, h3.1, h4.1⟩
          apply Stage.all_bind
          · intro e he
            simp only [lookupSource, Stage.trace, List.mem_cons, List.mem_singleton,
              List.not_mem_nil, or_false] at he
            rcases he with rfl | rfl
            · exact Or.inr (Or.inr ⟨sd, keys.1, Or.inl ⟨h1.1, rfl⟩,
                Or.inr ⟨rfl, h1.1, rfl, hdet⟩⟩)
            · exact Or.inl ⟨_, rfl⟩
          · intro unreached
            exact nomatch unreached

theorem prepare_mem (env : Env) (vm : Options) :
    ∀ e ∈ (prepare env vm).trace, PrepareEvent env vm e := by
  unfold prepare
  apply Stage.all_bind
  · intro e he
    rcases checkOptions_mem vm e he with h | h
    · exact Or.inl h
    · exact Or.inr (Or.inl h)
  · intro _ _ _
    apply Stage.all_bind
    · intro e he
      rcases loadKeys_mem env vm e he with h | h | h
      · exact Or.inr (Or.inr (Or.inl h))
      · exact Or.inr (Or.inr (Or.inr (Or.inl h)))
      · exact Or.inl h
    · intro keys tk hk e he
      exact Or.inr (Or.inr (Or.inr (Or.inr ⟨keys, tk, hk, resolve_mem env vm keys e he⟩)))

/-! ## What a successful stretch tells -/

theorem loadKeys_ok (env : Env) (vm : Options) (keys : Key × Key) (tk : List Event)
    (h : loadKeys env vm = .ok keys tk) :
    ∃ sp dp so d, vm.srcotp = some sp ∧ vm.dstotp = some dp ∧
      env.loadOTP sp = some so ∧ env.loadOTP dp = some d ∧
      ((vm.mlc = true ∧ keys = (env.getMLCKey so, env.getMLCKey d) ∧
          tk = [.loadOTP sp, .loadOTP dp]) ∨
        (vm.mlc = false ∧ ∃ ssp dsp ss ds, vm.srcseeprom = some ssp ∧
          vm.dstseeprom = some dsp ∧ env.loadSEEPROM ssp = some ss ∧
          env.loadSEEPROM dsp = some ds ∧
          keys = (env.getUSBKey ss so, env.getUSBKey ds d) ∧
          tk = [.loadOTP sp, .loadOTP dp, .loadSEEPROM ssp, .loadSEEPROM dsp])) := by
  unfold loadKeys at h
  rw [Stage.bind_eq_ok] at h
  obtain ⟨so, t1, r1, h1, h, rfl⟩ := h
  rw [loadOTPFrom_eq_ok] at h1
  obtain ⟨sp, hsp, hso, rfl⟩ := h1
  rw [Stage.bind_eq_ok] at h
  obtain ⟨d, t2, r2, h2, h, rfl⟩ := h
  rw [loadOTPFrom_eq_ok] at h2
  obtain ⟨dp, hdp, hd, rfl⟩ := h2
  refine ⟨sp, dp, so, d, hsp, hdp, hso, hd, ?_⟩
  unfold deriveKeys at h
  rw [countFlag_bne_zero] at h
  cases hm : vm.mlc with
  | true =>
    simp only [hm, if_true, Stage.ok.injEq] at h
    exact Or.inl ⟨rfl, h.1.symm, by rw [← h.2]; rfl⟩
  | false =>
    simp only [hm, Bool.false_eq_true, if_false] at h
    rw [Stage.bind_eq_ok] at h
    obtain ⟨ss, t3, r3, h3, h, rfl⟩ := h
    rw [loadSEEPROMFrom_eq_ok] at h3
    obtain ⟨ssp, hssp, hss, rfl⟩ := h3
    rw [Stage.bind_eq_ok] at h
    obtain ⟨ds, t4, r4, h4, h, rfl⟩ := h
    rw [loadSEEPROMFrom_eq_ok] at h4
    obtain ⟨dsp, hdsp, hds, rfl⟩ := h4
    simp only [Stage.ok.injEq] at h
    exact Or.inr ⟨rfl, ssp, dsp, ss, ds, hssp, hdsp, hss, hds, h.1.symm, by rw [← h.2]; rfl⟩

/-- Lines 84 to 89 never yield a handle: line 89 throws. -/
theorem resolve_never_ok (env : Env) (vm : Options) (keys : Key × Key) (f : File)
    (tr : List Event) : resolve env vm keys ≠ .ok f tr := by
  intro h
  unfold resolve at h
  rw [Stage.bind_eq_ok] at h
  obtain ⟨sd, t1, r1, _, h, _⟩ := h
  rw [Stage.bind_eq_ok] at h
  obtain ⟨dd, t2, r2, _, h, _⟩ := h
  rw [Stage.bind_eq_ok] at h
  obtain ⟨_, t3, r3, _, h, _⟩ := h
  rw [Stage.bind_eq_ok] at h
  obtain ⟨_, t4, r4, _, h, _⟩ := h
  rw [Stage.bind_eq_ok] at h
  obtain ⟨unreached, _⟩ := h
  exact nomatch unreached

/-- No run gets past line 89. -/
theorem prepare_never_ok (env : Env) (vm : Options) (f : File) (tr : List Event) :
    prepare env vm ≠ .ok f tr := by
  intro h
  unfold prepare at h
  rw [Stage.bind_eq_ok] at h
  obtain ⟨_, t1, r1, _, h, _⟩ := h
  rw [Stage.bind_eq_ok] at h
  obtain ⟨keys, tk, tres, _, h, _⟩ := h
  exact resolve_never_ok env vm keys f tres h

theorem loadOTPFrom_ret (env : Env) (arg : Option String) (c : Int) (tr : List Event)
    (h : loadOTPFrom env arg = .ret c tr) : c = 1 := by
  unfold loadOTPFrom at h
  split at h
  · injection h with h1 _
    exact h1.symm
  · split at h
    · injection h with h1 _
      exact h1.symm
    · cases h

theorem loadSEEPROMFrom_ret (env : Env) (arg : Option String) (c : Int) (tr : List Event)
    (h : loadSEEPROMFrom env arg = .ret c tr) : c = 1 := by
  unfold loadSEEPROMFrom at h
  split at h
  · injection h with h1 _
    exact h1.symm
  · split at h
    · injection h with h1 _
      exact h1.symm
    · cases h

theorem openDeviceFrom_ret (env : Env) (arg : Option String) (c : Int) (tr : List Event)
    (h : openDeviceFrom env arg = .ret c tr) : c = 1 := by
  unfold openDeviceFrom at h
  split at h
  · injection h with h1 _
    exact h1.symm
  · split at h
    · cases h
    · injection h with h1 _
      exact h1.symm

theorem detectGeometry_ret (env : Env) (d : String) (key : Key) (c : Int) (tr : List Event)
    (h : detectGeometry env d key = .ret c tr) : c = 1 := by
  unfold detectGeometry at h
  split at h
  · cases h
  · injection h with h1 _
    exact h1.symm

/-- Whenever lines 19 to 89 make `main` return, the status is `1`. -/
theorem prepare_ret (env : Env) (vm : Options) (c : Int) (tr : List Event)
    (h : prepare env vm = .ret c tr) : c = 1 := by
  revert c tr
  unfold prepare
  apply Stage.ret_one_bind
  · intro c tr h
    exact (checkOptions_ret vm c tr h).1
  · intro _
    apply Stage.ret_one_bind
    · unfold loadKeys
      apply Stage.ret_one_bind
      · exact loadOTPFrom_ret env _
      · intro so
        apply Stage.ret_one_bind
        · exact loadOTPFrom_ret env _
        · intro d
          unfold deriveKeys
          split
          · intro c tr h
            cases h
          · apply Stage.ret_one_bind
            · exact loadSEEPROMFrom_ret env _
            · intro ss
              apply Stage.ret_one_bind
              · exact loadSEEPROMFrom_ret env _
              · intro ds c tr h
                cases h
    · intro keys
      unfold resolve
      apply Stage.ret_one_bind
      · exact openDeviceFrom_ret env _
      · intro sd
        apply Stage.ret_one_bind
        · exact openDeviceFrom_ret env _
        · intro dd
          apply Stage.ret_one_bind
          · exact detectGeometry_ret env _ _
          · intro _
            apply Stage.ret_one_bind
            · exact detectGeometry_ret env _ _
            · intro _
              apply Stage.ret_one_bind
              · intro c tr h
                injection h with h1 _
                exact h1.symm
              · intro unreached
                exact nomatch unreached

/-! ## Reading traces -/

theorem writtenBytes_append (l1 l2 : List Event) :
    writtenBytes (l1 ++ l2) = writtenBytes l1 ++ writtenBytes l2 := by
  induction l1 with
  | nil => rfl
  | cons e l ih => cases e <;> simp [writtenBytes, ih]

theorem resizeCalls_append (l1 l2 : List Event) :
    resizeCalls (l1 ++ l2) = resizeCalls l1 ++ resizeCalls l2 := by
  induction l1 with
  | nil => rfl
  | cons e l ih => cases e <;> simp [resizeCalls, ih]

theorem writtenBytes_of_no_mutation (l : List Event) (h : ∀ e ∈ l, e.isMutation = false) :
    writtenBytes l = [] := by
  induction l with
  | nil => rfl
  | cons e l ih =>
    have he := h e (List.mem_cons_self _ _)
    have hl : ∀ x ∈ l, x.isMutation = false := fun x hx => h x (List.mem_cons_of_mem _ hx)
    cases e <;> simp_all [writtenBytes, Event.isMutation]

theorem resizeCalls_of_no_mutation (l : List Event) (h : ∀ e ∈ l, e.isMutation = false) :
    resizeCalls l = [] := by
  induction l with
  | nil => rfl
  | cons e l ih =>
    have he := h e (List.mem_cons_self _ _)
    have hl : ∀ x ∈ l, x.isMutation = false := fun x hx => h x (List.mem_cons_of_mem _ hx)
    cases e <;> simp_all [resizeCalls, Event.isMutation]

theorem writtenBytes_writes (f : File) (bufs : List (List Byte)) :
    writtenBytes (bufs.map (Event.write f)) = bufs.flatten := by
  induction bufs with
  | nil => rfl
  | cons b bs ih => simp [writtenBytes, ih]

theorem resizeCalls_writes (f : File) (bufs : List (List Byte)) :
    resizeCalls (bufs.map (Event.write f)) = [] := by
  induction bufs with
  | nil => rfl
  | cons b bs ih => simp [resizeCalls, ih]

/-- Lines 19 to 89 touch no file handle and do not report success. -/
theorem prepare_quiet (env : Env) (vm : Options) :
    ∀ e ∈ (prepare env vm).trace, e.isMutation = false ∧ e ≠ .done := by
  intro e he
  rcases prepare_mem env vm e he with ⟨m, rfl⟩ | rfl | ⟨p, rfl⟩ | ⟨⟨p, rfl⟩, _⟩ |
    ⟨keys, tk, _, h⟩
  · simp [Event.isMutation]
  · simp [Event.isMutation]
  · simp [Event.isMutation]
  · simp [Event.isMutation]
  · rcases h with ⟨m, rfl⟩ | ⟨p, rfl⟩ | ⟨d, k, _, rfl | ⟨rfl, _⟩⟩ <;>
      simp [Event.isMutation]

/-! ## The injection part -/

theorem inject_too_big (env : Env) (inj : Inject) (f : File) (fuel : Nat)
    (h : inj.file_size > f.sizeOnDisk) :
    inject env inj f fuel =
      ⟨some 1, [.err (.tooBig inj.file_size f.sizeOnDisk)], some f⟩ := by
  simp [inject, h]

theorem inject_finished (env : Env) (inj : Inject) (f : File) (fuel : Nat)
    (hcap : inj.file_size ≤ f.sizeOnDisk)
    (hloop : (copyLoop fuel (copyInit inj)).1 = .finished) (hio : env.closeThrows = false) :
    inject env inj f fuel =
      ⟨some 0,
        [.streamOpen f] ++ (copyLoop fuel (copyInit inj)).2.out.map (Event.write f) ++
          [.inputClose, .streamClose f] ++
          (if inj.file_size < f.size then [.resize f inj.file_size] else []) ++ [.done],
        some (if inj.file_size < f.size then f.Resize inj.file_size else f)⟩ := by
  have hc : ¬ inj.file_size > f.sizeOnDisk := by omega
  simp only [inject, hc, if_false, hloop, hio, Bool.false_eq_true]
  split <;> simp

theorem inject_read_failed (env : Env) (inj : Inject) (f : File) (fuel : Nat)
    (hcap : inj.file_size ≤ f.sizeOnDisk)
    (hloop : (copyLoop fuel (copyInit inj)).1 = .readFailed) :
    inject env inj f fuel =
      ⟨some 1,
        [.streamOpen f] ++ (copyLoop fuel (copyInit inj)).2.out.map (Event.write f) ++
          [.err .readFailed],
        some f⟩ := by
  have hc : ¬ inj.file_size > f.sizeOnDisk := by omega
  simp only [inject, hc, if_false, hloop]

/-- A run of lines 95 to 117 that ends with status `0` passed the capacity check, left
the loop through its test and closed the stream without an exception. -/
theorem inject_exit_zero (env : Env) (inj : Inject) (f : File) (fuel : Nat)
    (h : (inject env inj f fuel).exit = some 0) :
    inj.file_size ≤ f.sizeOnDisk ∧ (copyLoop fuel (copyInit inj)).1 = .finished ∧
      env.closeThrows = false := by
  unfold inject at h
  split at h
  · simp at h
  · rename_i hc
    refine ⟨by omega, ?_⟩
    simp only at h
    split at h
    · simp at h
    · simp at h
    · rename_i hfin
      refine ⟨hfin, ?_⟩
      cases hio : env.closeThrows with
      | false => rfl
      | true => simp [hio] at h

/-- The events lines 95 to 117 can produce. -/
theorem inject_mem (env : Env) (inj : Inject) (f : File) (fuel : Nat) :
    ∀ e ∈ (inject env inj f fuel).trace,
      e = .err (.tooBig inj.file_size f.sizeOnDisk) ∨ e = .streamOpen f ∨
        (∃ b, e = .write f b) ∨ e = .err .readFailed ∨ e = .inputClose ∨
        e = .streamClose f ∨ e = .err .exception ∨ e = .resize f inj.file_size ∨
        e = .done := by
  intro e he
  unfold inject at he
  split at he
  · simp only [List.mem_singleton] at he
    exact Or.inl he
  · simp only at he
    split at he
    · simp only [List.mem_append, List.mem_singleton, List.mem_map] at he
      rcases he with rfl | ⟨b, _, rfl⟩ <;> simp
    · simp only [List.mem_append, List.mem_singleton, List.mem_map] at he
      rcases he with (rfl | ⟨b, _, rfl⟩) | rfl <;> simp
    · split at he
      · simp only [List.mem_append, List.mem_cons, List.mem_singleton, List.mem_map,
          List.not_mem_nil, or_false] at he
        rcases he with (rfl | ⟨b, _, rfl⟩) | rfl | rfl | rfl <;> simp
      · split at he
        · simp only [List.mem_append, List.mem_cons, List.mem_singleton, List.mem_map,
            List.not_mem_nil, or_false] at he
          rcases he with (rfl | ⟨b, _, rfl⟩) | rfl | rfl | rfl | rfl <;> simp
        · simp only [List.mem_append, List.mem_cons, List.mem_singleton, List.mem_map,
            List.not_mem_nil, or_false] at he
          rcases he with (rfl | ⟨b, _, rfl⟩) | rfl | rfl | rfl <;> simp

theorem main_of_prepare_ret (env : Env) (vm : Options) (inj : Inject) (fuel : Nat) (c : Int)
    (tr : List Event) (h : prepare env vm = .ret c tr) :
    main env vm inj fuel = ⟨some 1, tr, none⟩ := by
  have hc := prepare_ret env vm c tr h
  subst hc
  simp [main, h]

/-- Every run returns 1 at or before line 89, whatever `file_size` and `input_file`
are: its trace is that of lines 19 to 89 and it has no handle. -/
theorem main_eq (env : Env) (vm : Options) (inj : Inject) (fuel : Nat) :
    main env vm inj fuel = ⟨some 1, (prepare env vm).trace, none⟩ := by
  cases hp : prepare env vm with
  | ret c tr => exact main_of_prepare_ret env vm inj fuel c tr hp
  | ok f tr => exact absurd hp (prepare_never_ok env vm f tr)

/-- No run opens the injection stream, writes, closes it or resizes. -/
theorem main_quiet (env : Env) (vm : Options) (inj : Inject) (fuel : Nat) :
    ∀ e ∈ (main env vm inj fuel).trace, e.isMutation = false ∧ e ≠ .done := by
  rw [main_eq]
  exact prepare_quiet env vm

theorem copyLoop_fuel (fuel : Nat) : ∀ (st : Copy) (fuel2 : Nat),
    st.to_copy < SIZE_MOD → st.to_copy ≤ fuel → st.to_copy ≤ fuel2 →
    copyLoop fuel2 st = copyLoop fuel st := by
  induction fuel with
  | zero =>
    intro st fuel2 _ hle _
    have h0 : st.to_copy = 0 := by omega
    rw [copyLoop_of_zero _ _ h0, copyLoop_of_zero _ _ h0]
  | succ fuel ih =>
    intro st fuel2 hlt hle hle2
    by_cases h0 : st.to_copy = 0
    · rw [copyLoop_of_zero _ _ h0, copyLoop_of_zero _ _ h0]
    · obtain ⟨n, rfl⟩ : ∃ n, fuel2 = n + 1 := ⟨fuel2 - 1, by omega⟩
      rw [copyLoop_succ _ _ (by omega), copyLoop_succ _ _ (by omega)]
      cases hb : loopBody st with
      | error st2 => rfl
      | ok st2 =>
        obtain ⟨got, _, h1, _, h3, _⟩ := loopBody_ok st st2 hlt hb
        exact ih st2 n (by omega) (by omega) (by omega)

/-! ## The concrete installation -/

theorem demo_main (inj : Inject) (fuel : Nat) :
    main demoEnv vmMlc inj fuel = ⟨some 1, demoTrace, none⟩ := by
  rw [main_eq]
  have h : (prepare demoEnv vmMlc).trace = demoTrace := by decide
  rw [h]

theorem demoInject_readable : demoInject.input_file.readable = 4096 := by
  unfold IStream.readable demoInject
  simp only [Bool.false_eq_true, if_false, List.length_replicate]

theorem demoShort_readable : demoShort.input_file.readable = 4096 := by
  unfold IStream.readable demoShort
  simp only [Bool.false_eq_true, if_false, List.length_replicate]

/-! ## Lines 95 to 117 on a handle -/

/-- Lines 95 to 117, run on a handle whose extent holds the declared size, with a
source that holds at least that many readable bytes and a close that does not throw:
the loop is left through its test, status 0 is returned and the buffers handed to
`stream.write`, in order, make up the first `file_size` bytes of the source. -/
theorem inject_complete (env : Env) (inj : Inject) (file : File) (fuel : Nat)
    (hcap : inj.file_size ≤ file.sizeOnDisk)
    (hsrc : inj.file_size ≤ inj.input_file.readable)
    (hsz : inj.file_size < SIZE_MOD) (hio : env.closeThrows = false)
    (hfuel : inj.file_size ≤ fuel) :
    (inject env inj file fuel).exit = some 0 ∧
      writtenBytes (inject env inj file fuel).trace =
        inj.input_file.bytes.take inj.file_size := by
  obtain ⟨st2, hloop, _, hout⟩ := copyLoop_complete fuel (copyInit inj) hsz hfuel hsrc
  have hfin : (copyLoop fuel (copyInit inj)).1 = .finished := by rw [hloop]
  have hinj := inject_finished env inj file fuel hcap hfin hio
  refine ⟨by rw [hinj], ?_⟩
  rw [hinj]
  simp only [writtenBytes_append, writtenBytes_writes]
  have hout2 : (copyLoop fuel (copyInit inj)).2.out.flatten =
      (copyInit inj).out.flatten ++
        List.take (copyInit inj).to_copy (copyInit inj).input_file.bytes := by
    rw [hloop]
    exact hout
  rw [hout2]
  have h1 : writtenBytes [Event.streamOpen file] = [] := rfl
  have h2 : writtenBytes [Event.inputClose, Event.streamClose file] = [] := rfl
  have h3 : writtenBytes (if inj.file_size < file.size then
      [Event.resize file inj.file_size] else []) = [] := by
    split <;> rfl
  have h4 : writtenBytes [Event.done] = [] := rfl
  rw [h1, h2, h3, h4]
  simp [copyInit]

/-! ## The contract of `main` -/

/-- C1. Capacity check: lines 95 to 98, on a handle `file` whose `GetSizeOnDisk()` is
below the declared size, return 1 at once: the only event is the error line, so no
injection stream is opened, nothing is written and `Resize` is not called, and the
handle is as it was. Of a whole run the same holds whatever the sizes are: it returns 1
and none of its events opens the stream, writes, closes or resizes. -/
theorem capacity_check (env : Env) (vm : Options) (inj : Inject) (fuel : Nat) (file : File)
    (hbig : inj.file_size > file.sizeOnDisk) :
    inject env inj file fuel =
        ⟨some 1, [.err (.tooBig inj.file_size file.sizeOnDisk)], some file⟩ ∧
      (∀ e ∈ (inject env inj file fuel).trace, e.isMutation = false) ∧
      (main env vm inj fuel).exit = some 1 ∧
      (∀ e ∈ (main env vm inj fuel).trace, e.isMutation = false) ∧
      writtenBytes (main env vm inj fuel).trace = [] ∧
      resizeCalls (main env vm inj fuel).trace = [] := by
  have hi := inject_too_big env inj file fuel hbig
  have hq : ∀ e ∈ (main env vm inj fuel).trace, e.isMutation = false :=
    fun e he => (main_quiet env vm inj fuel e he).1
  refine ⟨hi, ?_, by rw [main_eq], hq, writtenBytes_of_no_mutation _ hq,
    resizeCalls_of_no_mutation _ hq⟩
  rw [hi]
  intro e he
  simp only [List.mem_singleton] at he
  subst he
  rfl

/-- Witness of C1: a declared size of 4097 bytes against an extent of 4096 bytes. -/
theorem capacity_check_witness :
    demoTooBig.file_size = demoFile.sizeOnDisk + 1 ∧
      inject demoEnv demoTooBig demoFile 0 =
        ⟨some 1, [.err (.tooBig 4097 4096)], some demoFile⟩ ∧
      (main demoEnv vmMlc demoTooBig 0).exit = some 1 :=
  ⟨rfl, (capacity_check demoEnv vmMlc demoTooBig 0 demoFile (by decide)).1,
    (capacity_check demoEnv vmMlc demoTooBig 0 demoFile (by decide)).2.2.1⟩

/-- C2, at the failing input. The command line gives `--mlc`, both images and both OTP
files; everything loads and both geometries are detected; the destination image holds
the entry with an extent of 4096 bytes and the source holds 4096 readable bytes, a close
would not throw. The entry `vm["inject-path"]` is empty, line 89 throws after building
the session on the source device, and the run returns 1 having written nothing; the
claim has it return 0 with the 4096 bytes written, which is what lines 95 to 117 do
when they are run on that handle. -/
theorem injection_not_reached :
    vmMlc.inject_path = none ∧
      demoEnv.getFile "dst.img" [2, 2] "/update/patch.bin" = some (some demoFile) ∧
      demoFile.sizeOnDisk = 4096 ∧ demoInject.file_size = 4096 ∧
      demoInject.input_file.readable = 4096 ∧
      main demoEnv vmMlc demoInject 4096 = ⟨some 1, demoTrace, none⟩ ∧
      writtenBytes (main demoEnv vmMlc demoInject 4096).trace = [] ∧
      (inject demoEnv demoInject demoFile 4096).exit = some 0 ∧
      writtenBytes (inject demoEnv demoInject demoFile 4096).trace =
        List.replicate 4096 0xAA := by
  have hb := inject_complete demoEnv demoInject demoFile 4096 (by decide)
    (by rw [demoInject_readable]; decide) (by decide) rfl (by decide)
  refine ⟨Options.inject_path_none vmMlc, by decide, rfl, rfl, demoInject_readable,
    demo_main demoInject 4096, ?_, hb.1, ?_⟩
  · rw [demo_main]
    rfl
  · rw [hb.2]
    show List.take 4096 (List.replicate 4096 170) = List.replicate 4096 170
    rw [List.take_replicate]
    rfl

/-- C3. Truncated input is fatal: lines 95 to 117, on a handle `file` whose extent
holds the declared size and with a source that holds fewer readable bytes than
declared, return 1 through line 107 after writing the bytes the source had; they never
close the stream, never call `Resize`, do not print the success line, and the handle
keeps its sizes. A whole run returns 1 as well, calls no `Resize` and prints no success
line. -/
theorem truncated_input_fatal (env : Env) (vm : Options) (inj : Inject) (fuel : Nat)
    (file : File) (hcap : inj.file_size ≤ file.sizeOnDisk)
    (hshort : inj.input_file.readable < inj.file_size)
    (hsz : inj.file_size < SIZE_MOD) (hfuel : inj.file_size ≤ fuel) :
    ((inject env inj file fuel).exit = some 1 ∧
      (inject env inj file fuel).file = some file ∧
      resizeCalls (inject env inj file fuel).trace = [] ∧
      (∀ e ∈ (inject env inj file fuel).trace,
        e ≠ .done ∧ e ≠ .streamClose file ∧ e ≠ .resize file inj.file_size) ∧
      (∃ pre, (inject env inj file fuel).trace = pre ++ [.err .readFailed]) ∧
      writtenBytes (inject env inj file fuel).trace =
        (if inj.input_file.failed then [] else inj.input_file.bytes)) ∧
    ((main env vm inj fuel).exit = some 1 ∧
      resizeCalls (main env vm inj fuel).trace = [] ∧
      ∀ e ∈ (main env vm inj fuel).trace, e.isMutation = false ∧ e ≠ .done) := by
  obtain ⟨hloop, hout⟩ := copyLoop_truncated fuel (copyInit inj) hsz hfuel hshort
  have hm := inject_read_failed env inj file fuel hcap hloop
  have hq := main_quiet env vm inj fuel
  refine ⟨⟨by rw [hm], by rw [hm], ?_, ?_, ?_, ?_⟩, by rw [main_eq],
    resizeCalls_of_no_mutation _ (fun e he => (hq e he).1), hq⟩
  · rw [hm]
    simp only [resizeCalls_append, resizeCalls_writes, List.nil_append]
    rfl
  · rw [hm]
    intro e he
    simp only [List.mem_append, List.mem_singleton, List.mem_map] at he
    rcases he with (rfl | ⟨b, _, rfl⟩) | rfl
    · simp
    · simp
    · simp
  · exact ⟨_, by rw [hm]⟩
  · rw [hm]
    simp only [writtenBytes_append, writtenBytes_writes, hout]
    have h1 : writtenBytes [Event.streamOpen file] = [] := rfl
    have h2 : writtenBytes [Event.err Msg.readFailed] = [] := rfl
    rw [h1, h2]
    simp [copyInit]

/-- Witness of C3: 5000 bytes declared, 4096 readable, exit status 1. -/
theorem truncated_input_fatal_witness :
    demoShort.file_size = 5000 ∧ demoShort.input_file.readable = 4096 ∧
      demoLargeFile.sizeOnDisk = 8192 ∧
      (inject demoEnv demoShort demoLargeFile 5000).exit = some 1 ∧
      resizeCalls (inject demoEnv demoShort demoLargeFile 5000).trace = [] ∧
      (main demoEnv vmMlc demoShort 5000).exit = some 1 := by
  have h := truncated_input_fatal demoEnv vmMlc demoShort 5000 demoLargeFile
    (by decide) (by rw [demoShort_readable]; decide) (by decide) (by decide)
  exact ⟨rfl, demoShort_readable, rfl, h.1.1, h.1.2.2.1, h.2.1⟩

/-- C4. Resize law: when lines 95 to 117, run on a handle `file`, return 0, `Resize` is
called exactly when the declared size is below `file.GetSize()`, then exactly once,
with the declared size, right after the stream is closed, and the handle ends with that
logical size and its size on disk unchanged; otherwise `Resize` is not called and the
handle keeps both sizes. A whole run never calls `Resize`. -/
theorem resize_law (env : Env) (vm : Options) (inj : Inject) (fuel : Nat) (file : File)
    (hok : (inject env inj file fuel).exit = some 0) :
    resizeCalls (inject env inj file fuel).trace =
        (if inj.file_size < file.size then [inj.file_size] else []) ∧
      (inj.file_size < file.size →
        (∃ pre, (inject env inj file fuel).trace =
            pre ++ [.streamClose file, .resize file inj.file_size, .done] ∧
          resizeCalls pre = []) ∧
        (inject env inj file fuel).file =
          some { entry := file.entry, size := inj.file_size,
                 sizeOnDisk := file.sizeOnDisk }) ∧
      (¬ inj.file_size < file.size →
        (∀ e ∈ (inject env inj file fuel).trace, ∀ g n, e ≠ .resize g n) ∧
        (inject env inj file fuel).file = some file) ∧
      resizeCalls (main env vm inj fuel).trace = [] := by
  obtain ⟨hcap, hfin, hio⟩ := inject_exit_zero env inj file fuel hok
  have hm := inject_finished env inj file fuel hcap hfin hio
  have hmain : resizeCalls (main env vm inj fuel).trace = [] :=
    resizeCalls_of_no_mutation _ (fun e he => (main_quiet env vm inj fuel e he).1)
  by_cases hlt : inj.file_size < file.size
  · simp only [hlt, if_true, not_true_eq_false, false_implies, true_and, true_implies]
    simp only [hlt, if_true] at hm
    refine ⟨?_, ⟨⟨[.streamOpen file] ++
      (copyLoop fuel (copyInit inj)).2.out.map (Event.write file) ++ [.inputClose], ?_, ?_⟩,
      ?_⟩, hmain⟩
    · rw [hm]
      simp only [resizeCalls_append, resizeCalls_writes, List.nil_append]
      rfl
    · rw [hm]
      simp
    · simp only [resizeCalls_append, resizeCalls_writes, List.nil_append]
      rfl
    · rw [hm]
      rfl
  · simp only [hlt, if_false, false_implies, true_and, not_false_eq_true, true_implies]
    simp only [hlt, if_false] at hm
    refine ⟨?_, ⟨?_, by rw [hm]⟩, hmain⟩
    · rw [hm]
      simp only [resizeCalls_append, resizeCalls_writes, List.nil_append]
      rfl
    · rw [hm]
      intro e he g n h
      subst h
      simp at he

/-- Witness of C4: three bytes injected into an entry of logical size 4096. -/
theorem resize_law_witness :
    (inject demoEnv demoSmall demoFile 3).exit = some 0 ∧
      resizeCalls (inject demoEnv demoSmall demoFile 3).trace = [3] ∧
      (inject demoEnv demoSmall demoFile 3).file =
        some { entry := 7, size := 3, sizeOnDisk := 4096 } :=
  ⟨by decide,
    (resize_law demoEnv vmMlc demoSmall 3 demoFile (by decide)).1,
    ((resize_law demoEnv vmMlc demoSmall 3 demoFile (by decide)).2.1 (by decide)).2⟩

/-- C10. The copy loop ends and its counter never wraps: for a declared size that is a
`size_t`, `file_size` passes are enough for the loop to end, either through its test
with `to_copy = 0` or through line 107, and more fuel changes nothing; at the head of
pass `k` the bytes handed over so far plus `to_copy` make `file_size`, and `k` passes
have cost at least `k` bytes; a pass that writes hands over between 1 and
`min(0x2000, to_copy)` bytes, so that `to_copy -= read` is an exact subtraction. -/
theorem copy_loop_terminates (inj : Inject) (hsz : inj.file_size < SIZE_MOD) :
    (((copyLoop inj.file_size (copyInit inj)).1 = .finished ∧
        (copyLoop inj.file_size (copyInit inj)).2.to_copy = 0) ∨
      (copyLoop inj.file_size (copyInit inj)).1 = .readFailed) ∧
    (∀ fuel, inj.file_size ≤ fuel →
      copyLoop fuel (copyInit inj) = copyLoop inj.file_size (copyInit inj)) ∧
    (∀ k st, headOf k (copyInit inj) = some st →
      st.out.flatten.length + st.to_copy = inj.file_size ∧ k + st.to_copy ≤ inj.file_size) ∧
    (∀ k st st2, headOf k (copyInit inj) = some st → loopBody st = .ok st2 →
      ∃ buf : List Byte, st2.out = st.out ++ [buf] ∧ 1 ≤ buf.length ∧
        buf.length ≤ min 0x2000 st.to_copy ∧ buf.length ≤ st.to_copy ∧
        st2.to_copy = st.to_copy - buf.length) := by
  have hinit : (copyInit inj).to_copy = inj.file_size := rfl
  have hlt : (copyInit inj).to_copy < SIZE_MOD := hsz
  refine ⟨?_, ?_, ?_, ?_⟩
  · obtain ⟨h1, h2⟩ := copyLoop_terminates inj.file_size (copyInit inj) hlt (le_of_eq hinit)
    cases hx : (copyLoop inj.file_size (copyInit inj)).1 with
    | finished => exact Or.inl ⟨rfl, h2 hx⟩
    | readFailed => exact Or.inr rfl
    | outOfFuel => exact absurd hx h1
  · intro fuel hfuel
    exact copyLoop_fuel inj.file_size (copyInit inj) fuel hlt (le_of_eq hinit) hfuel
  · intro k st hk
    obtain ⟨_, h2, h3⟩ := headOf_inv k (copyInit inj) st hlt hk
    constructor
    · rw [h2]
      simp [copyInit]
    · exact h3
  · intro k st st2 hk hb
    obtain ⟨h1, _, _⟩ := headOf_inv k (copyInit inj) st hlt hk
    obtain ⟨got, _, g1, g2, g3, g4⟩ := loopBody_ok st st2 h1 hb
    have hm : min DATA_SIZE st.to_copy ≤ st.to_copy := Nat.min_le_right _ _
    exact ⟨got, g4, g1, g2, by omega, g3⟩

/-- Witness of C10: 5000 bytes declared, 4096 readable. -/
theorem copy_loop_terminates_witness :
    demoShort.file_size < SIZE_MOD ∧
      (((copyLoop demoShort.file_size (copyInit demoShort)).1 = .finished ∧
          (copyLoop demoShort.file_size (copyInit demoShort)).2.to_copy = 0) ∨
        (copyLoop demoShort.file_size (copyInit demoShort)).1 = .readFailed) :=
  ⟨by decide, (copy_loop_terminates demoShort (by decide)).1⟩

theorem Checked.mem_flag_errs (c : Checked) (cond : Bool) (x m : Msg) :
    m ∈ (c.flag cond x).errs ↔ m ∈ c.errs ∨ (cond = true ∧ m = x) := by
  cases cond <;> simp [Checked.flag]

/-- Which lines the checks of lines 38 to 45 print. -/
theorem validate_mem_errs (vm : Options) (m : Msg) :
    m ∈ (validate vm).errs ↔
      (vm.srcimage = none ∧ m = .missingSrcImage) ∨
      (vm.dstimage = none ∧ m = .missingDstImage) ∨
      (vm.srcotp = none ∧ m = .missingSrcOtp) ∨
      (vm.dstotp = none ∧ m = .missingDstOtp) ∨
      ((vm.srcseeprom = none ∧ vm.mlc = false) ∧ m = .missingSrcSeeprom) ∨
      ((vm.dstseeprom = none ∧ vm.mlc = false) ∧ m = .missingDstSeeprom) ∨
      ((vm.mlc = true ∧ vm.usb = true) ∧ m = .bothModes) := by
  simp only [validate, Checked.mem_flag_errs, count_beq_zero, countFlag_beq_zero,
    countFlag_both, List.not_mem_nil, false_or, Bool.and_eq_true, Option.isNone_iff_eq_none,
    Bool.not_eq_true', or_assoc]

/-- A run that fails the checks of lines 38 to 45 returns 1 with the lines of the checks
and the usage text as its whole trace. -/
theorem main_of_bad (env : Env) (vm : Options) (inj : Inject) (fuel : Nat)
    (h : (vm.help || (validate vm).bad) = true) :
    main env vm inj fuel =
      ⟨some 1, (validate vm).errs.map Event.err ++ [Event.usage], none⟩ := by
  have hc : checkOptions vm = .ret 1 ((validate vm).errs.map Event.err ++ [Event.usage]) := by
    simp only [checkOptions, h, if_true]
  have hp : prepare env vm = .ret 1 ((validate vm).errs.map Event.err ++ [Event.usage]) := by
    simp only [prepare, hc, Stage.bind]
  exact main_of_prepare_ret env vm inj fuel 1 _ hp

theorem main_of_bad_no_key_load (env : Env) (vm : Options) (inj : Inject) (fuel : Nat)
    (h : (vm.help || (validate vm).bad) = true) :
    ∀ e ∈ (main env vm inj fuel).trace, e.isKeyLoad = false := by
  rw [main_of_bad env vm inj fuel h]
  intro e he
  simp only [List.mem_append, List.mem_map, List.mem_singleton] at he
  rcases he with ⟨m, _, rfl⟩ | rfl <;> rfl

/-- Every event of a run comes from lines 19 to 89. -/
theorem main_mem (env : Env) (vm : Options) (inj : Inject) (fuel : Nat) :
    ∀ e ∈ (main env vm inj fuel).trace, PrepareEvent env vm e := by
  rw [main_eq]
  exact prepare_mem env vm

/-- Counterexample to C5 as stated: a command line with neither `--mlc` nor `--usb`
and all six paths passes the checks of lines 38 to 50: no line of the checks and no
usage text is printed, both OTP files and both SEEPROM files are loaded, the USB keys
are used for both detections, and the run goes on to line 89. -/
theorem mode_selection_counterexample :
    vmNeither.mlc = false ∧ vmNeither.usb = false ∧ (validate vmNeither).bad = false ∧
      checkOptions vmNeither = .ok () [] ∧
      main demoEnv vmNeither demoSmall 3 =
        ⟨some 1,
          [.loadOTP "src.otp", .loadOTP "dst.otp",
            .loadSEEPROM "src.seeprom", .loadSEEPROM "dst.seeprom",
            .openDevice "src.img", .openDevice "dst.img",
            .detect "src.img" [3, 1, 1], .detect "dst.img" [4, 2, 2],
            .session "src.img" [3, 1, 1], .err .exception],
          none⟩ := by
  decide

/-- C5, amended. Mode selection is at-most-one: a run that gives both `--mlc` and
`--usb` fails the checks with the line of line 45 and returns 1 before any key file is
loaded, so that a run that passes the checks gives at most one of the two; a run that
gives neither flag is not rejected for that: the line of line 45 is not printed, the
checks pass exactly when all six paths are given, and the keys are then the USB keys,
each of the SEEPROM and OTP files of its own side. -/
theorem mode_selection_at_most_one (env : Env) (vm : Options) (inj : Inject) (fuel : Nat) :
    (vm.mlc = true → vm.usb = true →
      (validate vm).bad = true ∧ Msg.bothModes ∈ (validate vm).errs ∧
        main env vm inj fuel =
          ⟨some 1, (validate vm).errs.map Event.err ++ [Event.usage], none⟩ ∧
        ∀ e ∈ (main env vm inj fuel).trace, e.isKeyLoad = false) ∧
    ((validate vm).bad = false → ¬ (vm.mlc = true ∧ vm.usb = true)) ∧
    (vm.mlc = false → vm.usb = false →
      Msg.bothModes ∉ (validate vm).errs ∧
        ((validate vm).bad = false ↔
          vm.srcimage.isSome ∧ vm.dstimage.isSome ∧ vm.srcotp.isSome ∧ vm.dstotp.isSome ∧
            vm.srcseeprom.isSome ∧ vm.dstseeprom.isSome) ∧
        ∀ keys tk, loadKeys env vm = .ok keys tk →
          ∃ sp dp ssp dsp so d ss ds,
            vm.srcotp = some sp ∧ env.loadOTP sp = some so ∧
            vm.dstotp = some dp ∧ env.loadOTP dp = some d ∧
            vm.srcseeprom = some ssp ∧ env.loadSEEPROM ssp = some ss ∧
            vm.dstseeprom = some dsp ∧ env.loadSEEPROM dsp = some ds ∧
            keys = (env.getUSBKey ss so, env.getUSBKey ds d)) := by
  refine ⟨?_, ?_, ?_⟩
  · intro hm hu
    have hb : (validate vm).bad = true := by
      rw [validate_bad]
      simp [hm, hu]
    have hor : (vm.help || (validate vm).bad) = true := by simp [hb]
    refine ⟨hb, ?_, main_of_bad env vm inj fuel hor,
      main_of_bad_no_key_load env vm inj fuel hor⟩
    rw [validate_mem_errs]
    simp [hm, hu]
  · intro hb ⟨hm, hu⟩
    rw [validate_bad] at hb
    simp [hm, hu] at hb
  · intro hm hu
    refine ⟨?_, ?_, ?_⟩
    · rw [validate_mem_errs]
      simp [hm]
    · rw [validate_bad]
      cases vm.srcimage <;> cases vm.dstimage <;> cases vm.srcotp <;> cases vm.dstotp <;>
        cases vm.srcseeprom <;> cases vm.dstseeprom <;> simp [hm]
    · intro keys tk hk
      obtain ⟨sp, dp, so, d, hsp, hdp, hso, hd, h | h⟩ := loadKeys_ok env vm keys tk hk
      · rw [hm] at h
        exact absurd h.1 (by decide)
      · obtain ⟨_, ssp, dsp, ss, ds, hssp, hdsp, hss, hds, hkeys, _⟩ := h
        exact ⟨sp, dp, ssp, dsp, so, d, ss, ds, hsp, hso, hdp, hd, hssp, hss, hdsp, hds,
          hkeys⟩

/-- Witness of C5, amended: both flags at once, and neither flag. -/
theorem mode_selection_at_most_one_witness :
    vmBoth.mlc = true ∧ vmBoth.usb = true ∧
      main demoEnv vmBoth demoSmall 3 = ⟨some 1, [.err .bothModes, .usage], none⟩ ∧
      ((validate vmNeither).bad = false ↔
        vmNeither.srcimage.isSome ∧ vmNeither.dstimage.isSome ∧ vmNeither.srcotp.isSome ∧
          vmNeither.dstotp.isSome ∧ vmNeither.srcseeprom.isSome ∧
          vmNeither.dstseeprom.isSome) :=
  ⟨rfl, rfl,
    ((mode_selection_at_most_one demoEnv vmBoth demoSmall 3).1 rfl rfl).2.2.1,
    ((mode_selection_at_most_one demoEnv vmNeither demoSmall 3).2.2 rfl rfl).2.1⟩

/-- C6. SEEPROM paths are required exactly in USB mode: without `--mlc`, a missing
`--srcseeprom` or `--dstseeprom` fails the checks with its line and the run returns 1
before any OTP or SEEPROM file is loaded; with `--mlc`, without `--usb` and with the
two images and the two OTP paths, the checks pass whatever the SEEPROM options are (so
that the run goes on to the key files unless `--help` was given), and no event of the
run loads a SEEPROM file. -/
theorem seeprom_required_in_usb (env : Env) (vm : Options) (inj : Inject) (fuel : Nat) :
    (vm.mlc = false → vm.srcseeprom = none ∨ vm.dstseeprom = none →
      (validate vm).bad = true ∧
        (Msg.missingSrcSeeprom ∈ (validate vm).errs ∨
          Msg.missingDstSeeprom ∈ (validate vm).errs) ∧
        main env vm inj fuel =
          ⟨some 1, (validate vm).errs.map Event.err ++ [Event.usage], none⟩ ∧
        ∀ e ∈ (main env vm inj fuel).trace, e.isKeyLoad = false) ∧
    (vm.mlc = true → vm.usb = false →
      vm.srcimage.isSome → vm.dstimage.isSome → vm.srcotp.isSome → vm.dstotp.isSome →
      (validate vm).bad = false ∧ (validate vm).errs = [] ∧
        (vm.help = false → checkOptions vm = .ok () []) ∧
        ∀ e ∈ (main env vm inj fuel).trace, e.isSeepromLoad = false) := by
  refine ⟨?_, ?_⟩
  · intro hm hs
    have hb : (validate vm).bad = true := by
      rw [validate_bad]
      rcases hs with hs | hs <;> simp [hm, hs]
    have hor : (vm.help || (validate vm).bad) = true := by simp [hb]
    refine ⟨hb, ?_, main_of_bad env vm inj fuel hor,
      main_of_bad_no_key_load env vm inj fuel hor⟩
    rcases hs with hs | hs
    · left
      rw [validate_mem_errs]
      simp [hm, hs]
    · right
      rw [validate_mem_errs]
      simp [hm, hs]
  · intro hm hu h1 h2 h3 h4
    have hb : (validate vm).bad = false := by
      rw [validate_bad]
      simp [hm, hu, h1, h2, h3, h4]
    refine ⟨hb, validate_errs vm hb, ?_, ?_⟩
    · intro hh
      rw [checkOptions_eq_ok]
      exact ⟨hh, hb, rfl⟩
    · intro e he
      rcases main_mem env vm inj fuel e he with
        ⟨m, rfl⟩ | rfl | ⟨p, rfl⟩ | ⟨_, hf⟩ | ⟨keys, tk, _, h⟩
      · rfl
      · rfl
      · rfl
      · rw [hm] at hf
        exact absurd hf (by decide)
      · rcases h with ⟨m, rfl⟩ | ⟨p, rfl⟩ | ⟨d, k, _, rfl | ⟨rfl, _⟩⟩ <;> rfl

/-- Witness of C6: `--usb` without `--srcseeprom`, and `--mlc` without SEEPROM paths. -/
theorem seeprom_required_in_usb_witness :
    vmUsbNoSeeprom.mlc = false ∧ vmUsbNoSeeprom.srcseeprom = none ∧
      main demoEnv vmUsbNoSeeprom demoSmall 3 =
        ⟨some 1, [.err .missingSrcSeeprom, .usage], none⟩ ∧
      vmMlc.srcseeprom = none ∧ vmMlc.dstseeprom = none ∧ (validate vmMlc).bad = false ∧
      ∀ e ∈ (main demoEnv vmMlc demoSmall 3).trace, e.isSeepromLoad = false :=
  ⟨rfl, rfl,
    ((seeprom_required_in_usb demoEnv vmUsbNoSeeprom demoSmall 3).1 rfl (Or.inl rfl)).2.2.1,
    rfl, rfl,
    ((seeprom_required_in_usb demoEnv vmMlc demoSmall 3).2 rfl rfl rfl rfl rfl rfl).1,
    ((seeprom_required_in_usb demoEnv vmMlc demoSmall 3).2 rfl rfl rfl rfl rfl rfl).2.2.2⟩

theorem copyLoop_finished (fuel : Nat) : ∀ st : Copy,
    (copyLoop fuel st).1 = .finished → (copyLoop fuel st).2.to_copy = 0 := by
  induction fuel with
  | zero =>
    intro st h
    by_cases h0 : st.to_copy = 0
    · rw [copyLoop_of_zero _ _ h0]
      exact h0
    · have hp : st.to_copy > 0 := by omega
      simp [copyLoop, hp] at h
  | succ fuel ih =>
    intro st h
    by_cases h0 : st.to_copy = 0
    · rw [copyLoop_of_zero _ _ h0]
      exact h0
    · rw [copyLoop_succ _ _ (by omega)] at h ⊢
      cases hb : loopBody st with
      | error st2 => simp [hb] at h
      | ok st2 =>
        simp only [hb] at h ⊢
        exact ih st2 h

theorem loadKeys_sideKey (env : Env) (vm : Options) (keys : Key × Key) (tk : List Event)
    (h : loadKeys env vm = .ok keys tk) :
    some keys.1 = sideKey env.getMLCKey env.getUSBKey vm.mlc
        (vm.srcotp.bind env.loadOTP) (vm.srcseeprom.bind env.loadSEEPROM) ∧
      some keys.2 = sideKey env.getMLCKey env.getUSBKey vm.mlc
        (vm.dstotp.bind env.loadOTP) (vm.dstseeprom.bind env.loadSEEPROM) := by
  obtain ⟨sp, dp, so, d, hsp, hdp, hso, hd, h | h⟩ := loadKeys_ok env vm keys tk h
  · obtain ⟨hm, hk, _⟩ := h
    subst hk
    simp [sideKey, hsp, hdp, hso, hd, hm]
  · obtain ⟨hm, ssp, dsp, ss, ds, hssp, hdsp, hss, hds, hk, _⟩ := h
    subst hk
    simp [sideKey, hsp, hdp, hso, hd, hm, hssp, hdsp, hss, hds]

theorem sideKey_congr (g1 : OTP → Key) (g2 : SEEPROM → OTP → Key) (mlc : Bool)
    (otp : Option OTP) (s1 s2 : Option SEEPROM) (h : mlc = false → s1 = s2) :
    sideKey g1 g2 mlc otp s1 = sideKey g1 g2 mlc otp s2 := by
  cases mlc with
  | false => rw [h rfl]
  | true => cases otp <;> simp [sideKey]

/-- Keys loaded and both detections passed: no early failure. -/
theorem no_early_failure (env : Env) (vm : Options) (keys : Key × Key) (tk : List Event)
    (hk : loadKeys env vm = .ok keys tk) (hd : DetectedBoth env vm keys) :
    (otpLoadFails env vm || seepromLoadFails env vm || detectFails env vm) = false := by
  obtain ⟨sd, dd, hsd, hdd, h1, h2⟩ := hd
  have hdet : detectFails env vm = false := by
    simp [detectFails, hk, hsd, hdd, h1, h2]
  obtain ⟨sp, dp, so, d, hsp, hdp, hso, hdo, h | h⟩ := loadKeys_ok env vm keys tk hk
  · obtain ⟨hm, _, _⟩ := h
    simp [otpLoadFails, seepromLoadFails, hdet, hsp, hdp, hso, hdo, hm]
  · obtain ⟨hm, ssp, dsp, ss, ds, hssp, hdsp, hss, hds, _, _⟩ := h
    simp [otpLoadFails, seepromLoadFails, hdet, hsp, hdp, hso, hdo, hm, hssp, hdsp, hss, hds]

theorem demo_loadKeys_usb :
    loadKeys demoEnv vmUsb = .ok ([3, 1, 1], [4, 2, 2])
      [.loadOTP "src.otp", .loadOTP "dst.otp",
        .loadSEEPROM "src.seeprom", .loadSEEPROM "dst.seeprom"] := by
  decide

theorem demo_loadKeys_other :
    loadKeys demoEnvOtherSrc vmUsb = .ok ([8, 9, 9], [4, 2, 2])
      [.loadOTP "src.otp", .loadOTP "dst.otp",
        .loadSEEPROM "src.seeprom", .loadSEEPROM "dst.seeprom"] := by
  decide

/-- C7. Key material never crosses between source and destination: whenever the keys
are computed, the source key is the derivation (MLC key of the OTP, or USB key of the
SEEPROM and the OTP) of the source files alone and the destination key is the same
derivation of the destination files alone; two runs in the same mode whose destination
files load to the same contents compute the same destination key whatever their source
files are, and symmetrically for the source key; and every geometry detection, session
construction and lookup of a run pairs the source image with the source key or the
destination image with the destination key. -/
theorem keys_never_cross (env : Env) (vm : Options) (inj : Inject) (fuel : Nat) :
    (∀ keys tk, loadKeys env vm = .ok keys tk →
      some keys.1 = sideKey env.getMLCKey env.getUSBKey vm.mlc
          (vm.srcotp.bind env.loadOTP) (vm.srcseeprom.bind env.loadSEEPROM) ∧
        some keys.2 = sideKey env.getMLCKey env.getUSBKey vm.mlc
          (vm.dstotp.bind env.loadOTP) (vm.dstseeprom.bind env.loadSEEPROM)) ∧
    (∀ (env2 : Env) (vm2 : Options) keys keys2 tk tk2,
      loadKeys env vm = .ok keys tk → loadKeys env2 vm2 = .ok keys2 tk2 →
      vm2.mlc = vm.mlc → env2.getMLCKey = env.getMLCKey → env2.getUSBKey = env.getUSBKey →
      (vm2.dstotp.bind env2.loadOTP = vm.dstotp.bind env.loadOTP →
        (vm.mlc = false →
          vm2.dstseeprom.bind env2.loadSEEPROM = vm.dstseeprom.bind env.loadSEEPROM) →
        keys2.2 = keys.2) ∧
      (vm2.srcotp.bind env2.loadOTP = vm.srcotp.bind env.loadOTP →
        (vm.mlc = false →
          vm2.srcseeprom.bind env2.loadSEEPROM = vm.srcseeprom.bind env.loadSEEPROM) →
        keys2.1 = keys.1)) ∧
    (∀ e ∈ (main env vm inj fuel).trace, ∀ d k, e.pairing = some (d, k) →
      ∃ keys tk, loadKeys env vm = .ok keys tk ∧ SameSide vm keys d k) := by
  refine ⟨loadKeys_sideKey env vm, ?_, ?_⟩
  · intro env2 vm2 keys keys2 tk tk2 h1 h2 hm hg1 hg2
    obtain ⟨a1, a2⟩ := loadKeys_sideKey env vm keys tk h1
    obtain ⟨b1, b2⟩ := loadKeys_sideKey env2 vm2 keys2 tk2 h2
    rw [hm, hg1, hg2] at b1 b2
    constructor
    · intro ho hs
      rw [ho, sideKey_congr _ _ _ _ _ _ hs, ← a2] at b2
      exact Option.some.inj b2
    · intro ho hs
      rw [ho, sideKey_congr _ _ _ _ _ _ hs, ← a1] at b1
      exact Option.some.inj b1
  · intro e he d k hp
    rcases main_mem env vm inj fuel e he with
      ⟨m, rfl⟩ | rfl | ⟨p, rfl⟩ | ⟨⟨p, rfl⟩, _⟩ | ⟨keys, tk, hk, h⟩
    · simp [Event.pairing] at hp
    · simp [Event.pairing] at hp
    · simp [Event.pairing] at hp
    · simp [Event.pairing] at hp
    · rcases h with ⟨m, rfl⟩ | ⟨p, rfl⟩ | ⟨d2, k2, hs, rfl | ⟨rfl, _⟩⟩
      · simp [Event.pairing] at hp
      · simp [Event.pairing] at hp
      · simp only [Event.pairing, Option.some.injEq, Prod.mk.injEq] at hp
        obtain ⟨rfl, rfl⟩ := hp
        exact ⟨keys, tk, hk, hs⟩
      · simp only [Event.pairing, Option.some.injEq, Prod.mk.injEq] at hp
        obtain ⟨rfl, rfl⟩ := hp
        exact ⟨keys, tk, hk, hs⟩

/-- Witness of C7: two USB runs with the same destination files and different source
files compute the same destination key. -/
theorem keys_never_cross_witness :
    loadKeys demoEnv vmUsb = .ok ([3, 1, 1], [4, 2, 2])
        [.loadOTP "src.otp", .loadOTP "dst.otp",
          .loadSEEPROM "src.seeprom", .loadSEEPROM "dst.seeprom"] ∧
      loadKeys demoEnvOtherSrc vmUsb = .ok ([8, 9, 9], [4, 2, 2])
        [.loadOTP "src.otp", .loadOTP "dst.otp",
          .loadSEEPROM "src.seeprom", .loadSEEPROM "dst.seeprom"] ∧
      (([8, 9, 9], [4, 2, 2]) : Key × Key).2 = (([3, 1, 1], [4, 2, 2]) : Key × Key).2 :=
  ⟨demo_loadKeys_usb, demo_loadKeys_other,
    ((keys_never_cross demoEnv vmUsb demoSmall 3).2.1 demoEnvOtherSrc vmUsb _ _ _ _
      demo_loadKeys_usb demo_loadKeys_other rfl rfl rfl).1 (by decide) (fun _ => by decide)⟩

/-- The only filesystem session a run builds is the one of line 89, on the source
image with the source key, after both detections; no run calls `GetFile`. -/
theorem session_on_source (env : Env) (vm : Options) (inj : Inject) (fuel : Nat) :
    ∀ e ∈ (main env vm inj fuel).trace, e.isSession = true →
      ∃ keys tk d, loadKeys env vm = .ok keys tk ∧ vm.srcimage = some d ∧
        e = .session d keys.1 := by
  intro e he hs
  rcases main_mem env vm inj fuel e he with
    ⟨m, rfl⟩ | rfl | ⟨p, rfl⟩ | ⟨⟨p, rfl⟩, _⟩ | ⟨keys, tk, hk, h⟩
  · simp [Event.isSession] at hs
  · simp [Event.isSession] at hs
  · simp [Event.isSession] at hs
  · simp [Event.isSession] at hs
  · rcases h with ⟨m, rfl⟩ | ⟨p, rfl⟩ | ⟨d2, k2, _, rfl | ⟨rfl, hd, rfl, _⟩⟩
    · simp [Event.isSession] at hs
    · simp [Event.isSession] at hs
    · simp [Event.isSession] at hs
    · exact ⟨keys, tk, d2, hk, hd, rfl⟩

/-- C9. Early failures are fatal and come before any mutation: on a run that passes
the checks of lines 38 to 50, if an OTP file fails to load, or in USB mode a SEEPROM
file fails to load, or geometry detection throws on either device, the run returns 1
and no event of it builds a session, looks a file up, opens the stream, writes, closes
or resizes; and a run returns 0 only if the checks passed, the keys were loaded, both
devices were opened and detected, the destination lookup found the handle, the declared
size fits its extent, the loop was left through its test with nothing left to copy, and
the stream was closed without an exception. -/
theorem early_failure_fatal (env : Env) (vm : Options) (inj : Inject) (fuel : Nat) :
    (checkOptions vm = .ok () [] →
      (otpLoadFails env vm || seepromLoadFails env vm || detectFails env vm) = true →
      (main env vm inj fuel).exit = some 1 ∧ (main env vm inj fuel).file = none ∧
        ∀ e ∈ (main env vm inj fuel).trace, e.isSession = false ∧ e.isMutation = false) ∧
    ((main env vm inj fuel).exit = some 0 →
      vm.help = false ∧ (validate vm).bad = false ∧
        (otpLoadFails env vm || seepromLoadFails env vm || detectFails env vm) = false ∧
        ∃ keys tk f tres, loadKeys env vm = .ok keys tk ∧ resolve env vm keys = .ok f tres ∧
          DetectedBoth env vm keys ∧ ResolvedInDestination env vm f ∧
          inj.file_size ≤ f.sizeOnDisk ∧
          (copyLoop fuel (copyInit inj)).1 = .finished ∧
          (copyLoop fuel (copyInit inj)).2.to_copy = 0 ∧
          env.closeThrows = false ∧ Event.streamClose f ∈ (main env vm inj fuel).trace ∧
          Event.done ∈ (main env vm inj fuel).trace) := by
  refine ⟨?_, ?_⟩
  · intro _ hfail
    have hm := main_eq env vm inj fuel
    refine ⟨by rw [hm], by rw [hm], ?_⟩
    intro e he
    refine ⟨?_, (main_quiet env vm inj fuel e he).1⟩
    rcases main_mem env vm inj fuel e he with
      ⟨m, rfl⟩ | rfl | ⟨p, rfl⟩ | ⟨⟨p, rfl⟩, _⟩ | ⟨keys, tk, hk, h⟩
    · rfl
    · rfl
    · rfl
    · rfl
    · rcases h with ⟨m, rfl⟩ | ⟨p, rfl⟩ | ⟨d2, k2, hs, rfl | ⟨_, _, _, hdet⟩⟩
      · rfl
      · rfl
      · rfl
      · exfalso
        have := no_early_failure env vm keys tk hk hdet
        rw [this] at hfail
        cases hfail
  · intro hz
    exfalso
    rw [main_eq] at hz
    simp at hz

/-- Witness of C9: the destination OTP file does not load. -/
theorem early_failure_fatal_witness :
    checkOptions vmMlc = .ok () [] ∧ otpLoadFails demoEnvBadOtp vmMlc = true ∧
      (main demoEnvBadOtp vmMlc demoSmall 3).exit = some 1 ∧
      ∀ e ∈ (main demoEnvBadOtp vmMlc demoSmall 3).trace,
        e.isSession = false ∧ e.isMutation = false :=
  ⟨by decide, by decide,
    ((early_failure_fatal demoEnvBadOtp vmMlc demoSmall 3).1 (by decide) (by decide)).1,
    ((early_failure_fatal demoEnvBadOtp vmMlc demoSmall 3).1 (by decide) (by decide)).2.2⟩

end WfsRecryptor
